import Mathlib

/-!
Verification of the MGTTS Wyoming-protocol client (src/mgtts.py).

The embedding works over byte/codepoint sequences modelled as `List Nat`.
The wire codec (`send_event` / `recv_event`) is translated together with a
model of the Python `json` library restricted as follows: JSON numbers are
integers (the protocol only ever carries integer fields; float, `NaN` and
`Infinity` literals are outside the model), header bytes are identified with
the decoded codepoint sequence (exact for all frames the codec itself
produces, since `json.dumps` runs with `ensure_ascii=True` and emits pure
ASCII), and `\uXXXX` escapes are modelled with the strict four-hex-digit
form.  Sockets are modelled as a byte list together with a fragmentation
oracle choosing how many bytes each `recv` call yields.
-/

namespace Wyoming

/-- JSON-compatible values as produced by `json.loads` / consumed by
`json.dumps`.  Strings are lists of Unicode codepoints; numbers are
restricted to integers (see module comment). -/
inductive Json where
  | null : Json
  | bool (b : Bool) : Json
  | num (n : Int) : Json
  | str (s : List Nat) : Json
  | arr (xs : List Json) : Json
  | obj (fs : List (List Nat × Json)) : Json

/-- First-match association lookup on a JSON object field list
(Python `dict` lookup; field lists built by the parser have unique keys). -/
def lookupField : List (List Nat × Json) → List Nat → Option Json
  | [], _ => none
  | (k, v) :: fs, key => if k = key then some v else lookupField fs key

/-- `d[k] = v` on a Python dict rendered as an ordered field list: replaces
the value in place when the key is present, otherwise appends. -/
def insertKey : List (List Nat × Json) → List Nat → Json → List (List Nat × Json)
  | [], key, v => [(key, v)]
  | (k, w) :: fs, key, v => if k = key then (k, v) :: fs else (k, w) :: insertKey fs key v

/-- `header.get(key, default)` (callers only apply this to objects). -/
def getD (j : Json) (key : List Nat) (dflt : Json) : Json :=
  match j with
  | .obj fs => (lookupField fs key).getD dflt
  | _ => dflt

/-- `header[key]` / `header.get(key)` field access as an `Option`. -/
def jlookup (j : Json) (key : List Nat) : Option Json :=
  match j with
  | .obj fs => lookupField fs key
  | _ => none

/-- Python truthiness of a JSON value (`if data:`). -/
def jsonTruthy : Json → Bool
  | .null => false
  | .bool b => b
  | .num n => n ≠ 0
  | .str s => s.length ≠ 0
  | .arr xs => xs.length ≠ 0
  | .obj fs => fs.length ≠ 0

/-- Codepoints on which `json.dumps` / `json.loads` string escaping
round-trips: valid Unicode scalar range, excluding the surrogate block
(Python itself maps adjacent escaped lone surrogates back to one codepoint,
so strings holding raw surrogates do not round-trip in CPython either). -/
def goodChar (c : Nat) : Bool := c < 1114112 && !(55296 ≤ c && c < 57344)

/-- All codepoints of a string are in the round-tripping range. -/
def strWFb (s : List Nat) : Bool := s.all goodChar

mutual

/-- Well-formed JSON value: object keys are unique (Python dicts), all
strings lie in the round-tripping codepoint range. -/
def wfb : Json → Bool
  | .null => true
  | .bool _ => true
  | .num _ => true
  | .str s => strWFb s
  | .arr xs => wfbElems xs
  | .obj fs => wfbFields fs

/-- `wfb` on every array element. -/
def wfbElems : List Json → Bool
  | [] => true
  | x :: xs => wfb x && wfbElems xs

/-- `wfb` on every object field, plus key uniqueness. -/
def wfbFields : List (List Nat × Json) → Bool
  | [] => true
  | (k, v) :: fs => strWFb k && wfb v && fs.all (fun g => !(g.1 = k : Bool)) && wfbFields fs

end

/-- Lowercase hex digit character for a value below 16. -/
def hexDigitChar (d : Nat) : Nat := if d < 10 then 48 + d else 87 + d

/-- Four lowercase hex digits of a value below 0x10000 (`\uXXXX` body). -/
def hex4 (n : Nat) : List Nat :=
  [hexDigitChar (n / 4096 % 16), hexDigitChar (n / 256 % 16), hexDigitChar (n / 16 % 16),
    hexDigitChar (n % 16)]

/-- One string character as emitted by `json.dumps` with `ensure_ascii=True`:
short escapes for the JSON control table and quote/backslash, printable
ASCII verbatim, `\uXXXX` otherwise (surrogate pairs above the BMP). -/
def escapeChar (c : Nat) : List Nat :=
  if c = 34 then [92, 34]
  else if c = 92 then [92, 92]
  else if c = 8 then [92, 98]
  else if c = 9 then [92, 116]
  else if c = 10 then [92, 110]
  else if c = 12 then [92, 102]
  else if c = 13 then [92, 114]
  else if 32 ≤ c && c ≤ 126 then [c]
  else if c < 65536 then 92 :: 117 :: hex4 c
  else 92 :: 117 :: hex4 (55296 + (c - 65536) / 1024) ++ 92 :: 117 :: hex4 (56320 + (c - 65536) % 1024)

/-- Escaped body of a JSON string literal. -/
def escapeStr (s : List Nat) : List Nat := s.flatMap escapeChar

/-- Serialized JSON string literal, quotes included. -/
def dumpsStr (s : List Nat) : List Nat := 34 :: escapeStr s ++ [34]

/-- Decimal digits (most significant first) of `n`, for `n ≤ fuel`. -/
def natBytesRec : Nat → Nat → List Nat
  | 0, _ => []
  | _ + 1, 0 => []
  | fuel + 1, n + 1 => natBytesRec fuel ((n + 1) / 10) ++ [48 + (n + 1) % 10]

/-- Decimal representation of a natural number (Python `repr`). -/
def natBytes (n : Nat) : List Nat := if n = 0 then [48] else natBytesRec n n

/-- Decimal representation of an integer, `-` sign L included. -/
def intBytes (n : Int) : List Nat :=
  if n < 0 then 45 :: natBytes (-n).toNat else natBytes n.toNat

mutual

/-- `json.dumps(value, separators=(",", ":"))` — compact serialization with
`ensure_ascii=True`, translated from the header construction in
`send_event` (src/mgtts.py line 25). -/
def dumps : Json → List Nat
  | .null => [110, 117, 108, 108]
  | .bool true => [116, 114, 117, 101]
  | .bool false => [102, 97, 108, 115, 101]
  | .num n => intBytes n
  | .str s => dumpsStr s
  | .arr xs => 91 :: dumpsElems xs ++ [93]
  | .obj fs => 123 :: dumpsFields fs ++ [125]

/-- Array elements joined by `,`. -/
def dumpsElems : List Json → List Nat
  | [] => []
  | [x] => dumps x
  | x :: y :: xs => dumps x ++ 44 :: dumpsElems (y :: xs)

/-- Object fields rendered `"key":value` joined by `,`. -/
def dumpsFields : List (List Nat × Json) → List Nat
  | [] => []
  | [(k, v)] => dumpsStr k ++ 58 :: dumps v
  | (k, v) :: g :: fs => dumpsStr k ++ 58 :: dumps v ++ 44 :: dumpsFields (g :: fs)

end

/-- JSON whitespace skipping (space, tab, newline, carriage return). -/
def skipWs : List Nat → List Nat
  | [] => []
  | c :: r => if c = 32 || c = 9 || c = 10 || c = 13 then skipWs r else c :: r

/-- Value of one hex digit character (both cases accepted by the parser). -/
def hexVal (c : Nat) : Option Nat :=
  if 48 ≤ c && c ≤ 57 then some (c - 48)
  else if 97 ≤ c && c ≤ 102 then some (c - 87)
  else if 65 ≤ c && c ≤ 70 then some (c - 55)
  else none

/-- Value of a four-hex-digit escape body. -/
def hexVal4 (a b c d : Nat) : Option Nat :=
  match hexVal a, hexVal b, hexVal c, hexVal d with
  | some x, some y, some z, some w => some (x * 4096 + y * 256 + z * 16 + w)
  | _, _, _, _ => none

/-- Prepend a decoded character to a string-parse result. -/
def consChar (c : Nat) (r : Option (List Nat × List Nat)) : Option (List Nat × List Nat) :=
  r.map (fun p => (c :: p.1, p.2))

/-- Body of a JSON string literal after the opening quote, following the
CPython `scanstring` logic: literal characters (control characters
rejected), the short escape table, `\uXXXX` escapes with surrogate-pair
combination and lone surrogates kept as-is (a following `\u` with a
malformed hex body is an error).  `fuel` bounds the recursion; any `fuel`
of at least the input length is exact. -/
def parseStrBody : Nat → List Nat → Option (List Nat × List Nat)
  | 0, _ => none
  | fuel + 1, s =>
    match s with
    | [] => none
    | c :: rest =>
      if c = 34 then some ([], rest)
      else if c = 92 then
        match rest with
        | [] => none
        | e :: r =>
          if e = 34 then consChar 34 (parseStrBody fuel r)
          else if e = 92 then consChar 92 (parseStrBody fuel r)
          else if e = 47 then consChar 47 (parseStrBody fuel r)
          else if e = 98 then consChar 8 (parseStrBody fuel r)
          else if e = 102 then consChar 12 (parseStrBody fuel r)
          else if e = 110 then consChar 10 (parseStrBody fuel r)
          else if e = 114 then consChar 13 (parseStrBody fuel r)
          else if e = 116 then consChar 9 (parseStrBody fuel r)
          else if e = 117 then
            match r with
            | a :: b :: cc :: d :: r1 =>
              (match hexVal4 a b cc d with
                | none => none
                | some h =>
                  if 55296 ≤ h && h < 56320 then
                    match r1 with
                    | x :: y :: r3 =>
                      if x = 92 && y = 117 then
                        match r3 with
                        | e2 :: f2 :: g2 :: i2 :: r2 =>
                          (match hexVal4 e2 f2 g2 i2 with
                            | none => none
                            | some l =>
                              if 56320 ≤ l && l < 57344 then
                                consChar (65536 + (h - 55296) * 1024 + (l - 56320))
                                  (parseStrBody fuel r2)
                              else consChar h (parseStrBody fuel r1))
                        | _ => none
                      else consChar h (parseStrBody fuel r1)
                    | _ => consChar h (parseStrBody fuel r1)
                  else consChar h (parseStrBody fuel r1))
            | _ => none
          else none
      else if c < 32 then none
      else consChar c (parseStrBody fuel rest)

/-- Greedy split of the leading run of decimal digit characters. -/
def splitDigits : List Nat → List Nat × List Nat
  | [] => ([], [])
  | c :: r =>
    if 48 ≤ c && c ≤ 57 then
      let p := splitDigits r
      (c :: p.1, p.2)
    else ([], c :: r)

/-- Numeric value of a big-endian digit character run. -/
def digitsVal (ds : List Nat) : Nat := ds.foldl (fun a c => a * 10 + (c - 48)) 0

/-- Digit-run part of an integer token: greedy digit split, the JSON
no-leading-zero rule, then the (possibly negated) numeric value. -/
def parseDigitsTok (neg : Bool) (s : List Nat) : Option (Int × List Nat) :=
  let p := splitDigits s
  if p.1.length = 0 then none
  else if 1 < p.1.length && p.1.headD 0 = 48 then none
  else some ((if neg then -(digitsVal p.1 : Int) else (digitsVal p.1 : Int)), p.2)

/-- Integer token at the head of the input: optional `-` sign, then a
digit run. -/
def parseIntTok (s : List Nat) : Option (Int × List Nat) :=
  match s with
  | [] => none
  | c :: r => if c = 45 then parseDigitsTok true r else parseDigitsTok false (c :: r)

mutual

/-- JSON value parser (model of the `json.loads` scanner restricted to
integer numerals, see the module comment).  `fuel` bounds recursion depth
and is consumed by every helper so the whole grammar is structural on it;
`loads` supplies a fuel that is always sufficient.  The grammar is split
into one helper per decision point so that every step is a top-level
pattern. -/
def parseVal : Nat → List Nat → Option (Json × List Nat)
  | 0, _ => none
  | fuel + 1, s => parseValCore fuel (skipWs s)

/-- Dispatch on the first significant character of a value. -/
def parseValCore : Nat → List Nat → Option (Json × List Nat)
  | 0, _ => none
  | _ + 1, [] => none
  | fuel + 1, c :: r =>
    if c = 34 then (parseStrBody (r.length + 1) r).map (fun p => (Json.str p.1, p.2))
    else if c = 91 then parseArrCore fuel (skipWs r)
    else if c = 123 then parseObjCore fuel (skipWs r)
    else if c = 110 then
      (match r with
        | 117 :: 108 :: 108 :: r1 => some (Json.null, r1)
        | _ => none)
    else if c = 116 then
      (match r with
        | 114 :: 117 :: 101 :: r1 => some (Json.bool true, r1)
        | _ => none)
    else if c = 102 then
      (match r with
        | 97 :: 108 :: 115 :: 101 :: r1 => some (Json.bool false, r1)
        | _ => none)
    else if c = 45 ∨ (48 ≤ c ∧ c ≤ 57) then
      (parseIntTok (c :: r)).map (fun p => (Json.num p.1, p.2))
    else none

/-- After a `[`: empty array or first element. -/
def parseArrCore : Nat → List Nat → Option (Json × List Nat)
  | 0, _ => none
  | _ + 1, [] => none
  | fuel + 1, d :: r2 => if d = 93 then some (Json.arr [], r2) else parseElems fuel (d :: r2) []

/-- After a `{`: empty object or first field. -/
def parseObjCore : Nat → List Nat → Option (Json × List Nat)
  | 0, _ => none
  | _ + 1, [] => none
  | fuel + 1, d :: r2 => if d = 125 then some (Json.obj [], r2) else parseFields fuel (d :: r2) []

/-- One-or-more comma-separated array elements up to the closing `]`,
accumulating in order. -/
def parseElems : Nat → List Nat → List Json → Option (Json × List Nat)
  | 0, _, _ => none
  | fuel + 1, s, acc => parseElemsStep fuel acc (parseVal fuel s)

/-- Accumulate one parsed array element. -/
def parseElemsStep : Nat → List Json → Option (Json × List Nat) → Option (Json × List Nat)
  | 0, _, _ => none
  | _ + 1, _, none => none
  | fuel + 1, acc, some (v, r) => parseElemsSep fuel (acc ++ [v]) (skipWs r)

/-- After an array element: `,` continues, `]` closes. -/
def parseElemsSep : Nat → List Json → List Nat → Option (Json × List Nat)
  | 0, _, _ => none
  | _ + 1, _, [] => none
  | fuel + 1, acc, d :: r2 =>
    if d = 44 then parseElems fuel r2 acc
    else if d = 93 then some (Json.arr acc, r2)
    else none

/-- One-or-more `"key":value` object fields up to the closing brace,
accumulated with Python dict insertion semantics. -/
def parseFields : Nat → List Nat → List (List Nat × Json) → Option (Json × List Nat)
  | 0, _, _ => none
  | fuel + 1, s, acc => parseFieldsCore fuel (skipWs s) acc

/-- A field starts with a quoted key. -/
def parseFieldsCore : Nat → List Nat → List (List Nat × Json) → Option (Json × List Nat)
  | 0, _, _ => none
  | _ + 1, [], _ => none
  | fuel + 1, c :: r, acc =>
    if c = 34 then parseFieldsKey fuel acc (parseStrBody (r.length + 1) r)
    else none

/-- Continue after the key string parse. -/
def parseFieldsKey : Nat → List (List Nat × Json) → Option (List Nat × List Nat) →
    Option (Json × List Nat)
  | 0, _, _ => none
  | _ + 1, _, none => none
  | fuel + 1, acc, some (k, r1) => parseFieldsColon fuel acc k (skipWs r1)

/-- Expect the `:` separator, then the field value. -/
def parseFieldsColon : Nat → List (List Nat × Json) → List Nat → List Nat →
    Option (Json × List Nat)
  | 0, _, _, _ => none
  | _ + 1, _, _, [] => none
  | fuel + 1, acc, k, d :: r2 =>
    if d = 58 then parseFieldsVal fuel acc k (parseVal fuel r2) else none

/-- Insert the parsed value under the key (dict assignment semantics). -/
def parseFieldsVal : Nat → List (List Nat × Json) → List Nat → Option (Json × List Nat) →
    Option (Json × List Nat)
  | 0, _, _, _ => none
  | _ + 1, _, _, none => none
  | fuel + 1, acc, k, some (v, r3) => parseFieldsSep fuel (insertKey acc k v) (skipWs r3)

/-- After a field: `,` continues, the closing brace ends the object. -/
def parseFieldsSep : Nat → List (List Nat × Json) → List Nat → Option (Json × List Nat)
  | 0, _, _ => none
  | _ + 1, _, [] => none
  | fuel + 1, acc, d2 :: r4 =>
    if d2 = 44 then parseFields fuel r4 acc
    else if d2 = 125 then some (Json.obj acc, r4)
    else none

end

/-- `json.loads` on a decoded byte/codepoint sequence: parse one value and
require only whitespace to remain (CPython raises `Extra data` otherwise).
`none` stands for any `json.JSONDecodeError`. -/
def loads (s : List Nat) : Option Json :=
  match parseVal (6 * s.length + 6) s with
  | some (j, r) => if skipWs r = [] then some j else none
  | none => none

/-! ### Socket model and `recv_event` -/

/-- The exceptions `recv_event` can raise: `ConnectionError` (connection
closed), `json.JSONDecodeError`, `KeyError` (missing `type`), `TypeError`
(comparing a non-number length, indexing a non-object header), and
`AttributeError` (`update` on a non-dict `data`). -/
inductive RErr where
  | connClosed : RErr
  | jsonError : RErr
  | keyError : RErr
  | typeError : RErr
  | attrError : RErr
deriving DecidableEq

/-- Number of bytes one `sock.recv(req)` call yields on a stream holding
`s`: the fragmentation oracle `o` proposes its head entry, clamped to at
least one byte and at most `min req s.length` (POSIX stream semantics:
a read on an open stream returns between 1 and `req` of the available
bytes; every call site requests at least one byte). -/
def chunkLen (o : List Nat) (req : Nat) (s : List Nat) : Nat :=
  max 1 (min (o.headD req) (min req s.length))

/-- The `sock.recv(1)` header loop (src/mgtts.py lines 34-41): a one-byte
request always yields exactly the head byte (or nothing at end of
stream, raising `ConnectionError`), so the loop walks the stream byte by
byte until the newline, consuming one oracle entry per call. -/
def readHeaderLoop : List Nat → List Nat → List Nat →
    Except RErr (List Nat × List Nat × List Nat)
  | _, [], _ => .error .connClosed
  | o, c :: rest, buf =>
    if c = 10 then .ok (buf, rest, o.tail) else readHeaderLoop o.tail rest (buf ++ [c])

/-- The data-block read loop (src/mgtts.py lines 50-55):
`while len(extra_buf) < data_length: chunk = sock.recv(data_length - len(extra_buf))`.
`fuel` makes the recursion structural; every iteration consumes at least
one stream byte, so any `fuel ≥ s.length` gives the exact loop semantics
(when the fuel runs out the stream is already empty, which is the
`ConnectionError` case either way). -/
def readDataLoop : Nat → List Nat → List Nat → Nat → List Nat →
    Except RErr (List Nat × List Nat × List Nat)
  | 0, o, s, need, acc =>
    if acc.length < need then .error .connClosed else .ok (acc, s, o)
  | fuel + 1, o, s, need, acc =>
    if acc.length < need then
      let k := chunkLen o (need - acc.length) s
      if (s.take k).length = 0 then .error .connClosed
      else readDataLoop fuel o.tail (s.drop k) need (acc ++ s.take k)
    else .ok (acc, s, o)

/-- The payload read loop (src/mgtts.py lines 62-70):
`while remaining > 0: chunk = sock.recv(min(remaining, 65536))`, collecting
the chunks and joining them at the end.  Fuel as in `readDataLoop`. -/
def readPayloadLoop : Nat → List Nat → List Nat → Nat → List (List Nat) →
    Except RErr (List Nat × List Nat × List Nat)
  | 0, o, s, remaining, parts =>
    if 0 < remaining then .error .connClosed else .ok (parts.flatten, s, o)
  | fuel + 1, o, s, remaining, parts =>
    if 0 < remaining then
      let k := chunkLen o (min remaining 65536) s
      if (s.take k).length = 0 then .error .connClosed
      else readPayloadLoop fuel o.tail (s.drop k) (remaining - (s.take k).length)
        (parts ++ [s.take k])
    else .ok (parts.flatten, s, o)

/-- Python comparison on `header.get("data_length", 0) > 0` and the
arithmetic that follows: integers are used as-is, booleans coerce to 0/1
(`bool` is an `int` subclass), any other JSON value raises `TypeError`. -/
def jsonToLen : Json → Except RErr Int
  | .num n => .ok n
  | .bool b => .ok (if b then 1 else 0)
  | _ => .error .typeError

/-- `header["type"]` (src/mgtts.py line 44): `TypeError` when the parsed
header is not an object, `KeyError` when the key is missing. -/
def indexField (j : Json) (key : List Nat) : Except RErr Json :=
  match j with
  | .obj fs =>
    (match lookupField fs key with
      | some v => .ok v
      | none => .error .keyError)
  | _ => .error .typeError

/-- `data.update(json.loads(extra_buf))` (src/mgtts.py line 56): merge a
JSON object into `data` with key-overwrite semantics.  A non-dict `data`
raises `AttributeError`; a non-object merge argument is modelled as
`TypeError` (`dict.update` accepts only mappings or pair iterables, and
the protocol only carries objects in this position). -/
def updateData : Json → Json → Except RErr Json
  | .obj fs, .obj gs => .ok (Json.obj (gs.foldl (fun acc g => insertKey acc g.1 g.2) fs))
  | .obj _, _ => .error .typeError
  | _, _ => .error .attrError

/-- ASCII codepoints of the header keys used by the codec. -/
def typeKey : List Nat := [116, 121, 112, 101]

/-- ASCII codepoints of "data". -/
def dataKey : List Nat := [100, 97, 116, 97]

/-- ASCII codepoints of the data-length header key. -/
def dataLengthKey : List Nat := [100, 97, 116, 97, 95, 108, 101, 110, 103, 116, 104]

/-- ASCII codepoints of the payload-length header key. -/
def payloadLengthKey : List Nat :=
  [112, 97, 121, 108, 111, 97, 100, 95, 108, 101, 110, 103, 116, 104]

/-- Decoded event: `(type, data, payload)` as `recv_event` returns it. -/
abbrev RecvOut := (Json × Json × List Nat) × List Nat × List Nat

/-- Payload phase, last step: package the payload bytes read by the loop
(src/mgtts.py lines 60-70). -/
def recvPayloadDone (t d : Json) : Except RErr (List Nat × List Nat × List Nat) →
    Except RErr RecvOut
  | .error e => .error e
  | .ok (p, s3, o3) => .ok ((t, d, p), s3, o3)

/-- Payload phase: read `payload_length` bytes when positive, else the
payload is empty (src/mgtts.py lines 59-70). -/
def recvPayloadLen (o s : List Nat) (t d : Json) : Except RErr Int → Except RErr RecvOut
  | .error e => .error e
  | .ok pl =>
    if 0 < pl then recvPayloadDone t d (readPayloadLoop s.length o s pl.toNat [])
    else .ok ((t, d, []), s, o)

/-- Payload phase entry: evaluate `header.get("payload_length", 0)`. -/
def recvPayloadPhase (o s : List Nat) (t d hdr : Json) : Except RErr RecvOut :=
  recvPayloadLen o s t d (jsonToLen (getD hdr payloadLengthKey (Json.num 0)))

/-- Data phase, merge step (src/mgtts.py line 56). -/
def recvAfterMerge (hdr t : Json) (o2 s2 : List Nat) : Except RErr Json → Except RErr RecvOut
  | .error e => .error e
  | .ok d1 => recvPayloadPhase o2 s2 t d1 hdr

/-- Data phase, parse step: `json.loads(extra_buf)` (src/mgtts.py line 56). -/
def recvExtraParse (hdr t d0 : Json) (o2 s2 : List Nat) : Option Json → Except RErr RecvOut
  | none => .error .jsonError
  | some ex => recvAfterMerge hdr t o2 s2 (updateData d0 ex)

/-- Data phase, after the block read loop (src/mgtts.py lines 50-56). -/
def recvAfterDataRead (hdr t d0 : Json) : Except RErr (List Nat × List Nat × List Nat) →
    Except RErr RecvOut
  | .error e => .error e
  | .ok (extra, s2, o2) => recvExtraParse hdr t d0 o2 s2 (loads extra)

/-- Data phase entry: evaluate `header.get("data_length", 0)` and read the
extra block when positive (src/mgtts.py lines 48-56). -/
def recvDataLen (o1 s1 : List Nat) (hdr t d0 : Json) : Except RErr Int → Except RErr RecvOut
  | .error e => .error e
  | .ok dl =>
    if 0 < dl then recvAfterDataRead hdr t d0 (readDataLoop s1.length o1 s1 dl.toNat [])
    else recvPayloadPhase o1 s1 t d0 hdr

/-- After `header["type"]` (src/mgtts.py lines 44-48): take
`data = header.get("data", {})` and move to the data phase. -/
def recvAfterType (hdr : Json) (o1 s1 : List Nat) : Except RErr Json → Except RErr RecvOut
  | .error e => .error e
  | .ok t =>
    recvDataLen o1 s1 hdr t (getD hdr dataKey (Json.obj []))
      (jsonToLen (getD hdr dataLengthKey (Json.num 0)))

/-- After the header line: `json.loads(buf)` then `header["type"]`
(src/mgtts.py lines 43-44). -/
def recvHeaderParse (o1 s1 : List Nat) : Option Json → Except RErr RecvOut
  | none => .error .jsonError
  | some hdr => recvAfterType hdr o1 s1 (indexField hdr typeKey)

/-- Dispatch on the header-line read result. -/
def recvHeaderDone : Except RErr (List Nat × List Nat × List Nat) → Except RErr RecvOut
  | .error e => .error e
  | .ok (buf, s1, o1) => recvHeaderParse o1 s1 (loads buf)

/-- `recv_event(sock)` (src/mgtts.py lines 31-72) over the socket model:
`o` is the fragmentation oracle, `s` the full byte sequence the wire will
deliver.  Returns the decoded `(type, data, payload)` triple together
with the unconsumed stream and oracle, or the exception the Python code
raises.  The phases are split into the helpers above, one per statement
of the source function. -/
def recv_event (o s : List Nat) : Except RErr RecvOut :=
  recvHeaderDone (readHeaderLoop o s [])

/-- The decoded event and the remaining stream (the oracle remainder is
not observable). -/
def recvResult (o s : List Nat) :
    Except RErr ((Json × Json × List Nat) × List Nat) :=
  (recv_event o s).map (fun r => (r.1, r.2.1))

/-! ### Oracle-free characterization of `recv_event` -/

/-- Split the stream at the first newline: the header line (newline
excluded) and the rest. -/
def splitLine : List Nat → Option (List Nat × List Nat)
  | [] => none
  | c :: r => if c = 10 then some ([], r) else (splitLine r).map (fun p => (c :: p.1, p.2))

/-- Specification result type: event and remaining stream. -/
abbrev SpecOut := (Json × Json × List Nat) × List Nat

/-- Oracle-free payload phase: exact take/drop. -/
def recvSpecPayloadLen (s : List Nat) (t d : Json) : Except RErr Int → Except RErr SpecOut
  | .error e => .error e
  | .ok pl =>
    if 0 < pl then
      if s.length < pl.toNat then .error .connClosed
      else .ok ((t, d, s.take pl.toNat), s.drop pl.toNat)
    else .ok ((t, d, []), s)

/-- Oracle-free payload phase entry. -/
def recvSpecPayload (s : List Nat) (t d hdr : Json) : Except RErr SpecOut :=
  recvSpecPayloadLen s t d (jsonToLen (getD hdr payloadLengthKey (Json.num 0)))

/-- Oracle-free merge step. -/
def recvSpecAfterMerge (hdr t : Json) (s2 : List Nat) : Except RErr Json → Except RErr SpecOut
  | .error e => .error e
  | .ok d1 => recvSpecPayload s2 t d1 hdr

/-- Oracle-free extra-block parse step. -/
def recvSpecExtraParse (hdr t d0 : Json) (s2 : List Nat) : Option Json → Except RErr SpecOut
  | none => .error .jsonError
  | some ex => recvSpecAfterMerge hdr t s2 (updateData d0 ex)

/-- Oracle-free data phase: exact take/drop of the declared block. -/
def recvSpecDataLen (s1 : List Nat) (hdr t d0 : Json) : Except RErr Int → Except RErr SpecOut
  | .error e => .error e
  | .ok dl =>
    if 0 < dl then
      if s1.length < dl.toNat then .error .connClosed
      else recvSpecExtraParse hdr t d0 (s1.drop dl.toNat) (loads (s1.take dl.toNat))
    else recvSpecPayload s1 t d0 hdr

/-- Oracle-free step after `header["type"]`. -/
def recvSpecAfterType (hdr : Json) (s1 : List Nat) : Except RErr Json → Except RErr SpecOut
  | .error e => .error e
  | .ok t =>
    recvSpecDataLen s1 hdr t (getD hdr dataKey (Json.obj []))
      (jsonToLen (getD hdr dataLengthKey (Json.num 0)))

/-- Oracle-free header parse step. -/
def recvSpecHeaderParse (s1 : List Nat) : Option Json → Except RErr SpecOut
  | none => .error .jsonError
  | some hdr => recvSpecAfterType hdr s1 (indexField hdr typeKey)

/-- Oracle-free characterization of one `recv_event` call: proved to agree
with `recvResult` for every fragmentation oracle. -/
def recvSpec (s : List Nat) : Except RErr SpecOut :=
  match splitLine s with
  | none => .error .connClosed
  | some p => recvSpecHeaderParse p.2 (loads p.1)

/-! ### send_event, the synthesize request, and multi-event decoding -/

/-- `send_event(sock, event_type, data, payload)` (src/mgtts.py lines
18-28): the exact bytes written to the socket.  The header dict starts as
`\x7b"type": event_type\x7d`, gains `"data"` when `data` is truthy and
`"payload_length"` when the payload is non-empty, is serialized compactly
with a trailing newline, and the payload bytes follow when non-empty. -/
def send_event (event_type : List Nat) (data : Json) (payload : List Nat) : List Nat :=
  let h0 := insertKey [] typeKey (Json.str event_type)
  let h1 := if jsonTruthy data then insertKey h0 dataKey data else h0
  let h2 := if payload = [] then h1
    else insertKey h1 payloadLengthKey (Json.num (payload.length : Int))
  dumps (Json.obj h2) ++ [10] ++ (if payload = [] then [] else payload)

/-- Decode up to `n` successive events from the stream (repeated
`recv_event` calls as in the main loop, src/mgtts.py line 217), with the
events decoded so far and the error that stopped decoding, if any. -/
def recvStream : Nat → List Nat → List Nat →
    List (Json × Json × List Nat) × Option RErr
  | 0, _, _ => ([], none)
  | n + 1, o, s =>
    match recv_event o s with
    | .error e => ([], some e)
    | .ok (ev, s1, o1) =>
      match recvStream n o1 s1 with
      | (evs, err) => (ev :: evs, err)

/-! ### The playback event loop (src/mgtts.py lines 204-269) -/

/-- ASCII codepoints of the audio-start event type. -/
def audioStartKey : List Nat := [97, 117, 100, 105, 111, 45, 115, 116, 97, 114, 116]

/-- ASCII codepoints of the audio-chunk event type. -/
def audioChunkKey : List Nat := [97, 117, 100, 105, 111, 45, 99, 104, 117, 110, 107]

/-- ASCII codepoints of the audio-stop event type. -/
def audioStopKey : List Nat := [97, 117, 100, 105, 111, 45, 115, 116, 111, 112]

/-- ASCII codepoints of "synthesize". -/
def synthesizeKey : List Nat := [115, 121, 110, 116, 104, 101, 115, 105, 122, 101]

/-- ASCII codepoints of "rate". -/
def rateKey : List Nat := [114, 97, 116, 101]

/-- ASCII codepoints of "width". -/
def widthKey : List Nat := [119, 105, 100, 116, 104]

/-- ASCII codepoints of "channels". -/
def channelsKey : List Nat := [99, 104, 97, 110, 110, 101, 108, 115]

/-- ASCII codepoints of "text". -/
def textKey : List Nat := [116, 101, 120, 116]

/-- ASCII codepoints of "voice". -/
def voiceKey : List Nat := [118, 111, 105, 99, 101]

/-- ASCII codepoints of "name". -/
def nameKey : List Nat := [110, 97, 109, 101]

/-- ASCII codepoints of "speaker". -/
def speakerKey : List Nat := [115, 112, 101, 97, 107, 101, 114]

/-- ASCII codepoints of the player name "sox". -/
def soxName : List Nat := [115, 111, 120]

/-- ASCII codepoints of the player name "ffplay". -/
def ffplayName : List Nat := [102, 102, 112, 108, 97, 121]

/-- ASCII codepoints of the player name "paplay". -/
def paplayName : List Nat := [112, 97, 112, 108, 97, 121]

/-- Python `event_type == "..."`: the decoded type compares equal to a
string constant only when it is that string (other JSON values are never
equal to a `str`). -/
def jsonEqStr (j : Json) (s : List Nat) : Bool :=
  match j with
  | .str t => decide (t = s)
  | _ => false

/-- `start_streaming_player` (src/mgtts.py lines 75-106) returns a live
process exactly for the three streaming players and `None` otherwise; the
model records only whether a process was obtained. -/
def startPlayer (player : List Nat) : Bool :=
  decide (player = soxName) || decide (player = ffplayName) || decide (player = paplayName)

/-- State of the main playback loop (locals of `main`,
src/mgtts.py lines 208-213, plus the observable effects on the player
process).  `writes` are the chunks written to the current process's stdin,
`procGen` counts how many times a player process has been provisioned, and
`wavPlayed` records a `play_wav_buffer` call (data and format). -/
structure PbState where
  streaming : Bool
  player : List Nat
  procActive : Bool
  procGen : Nat
  writes : List (List Nat)
  stdinClosed : Bool
  pcm_buf : List Nat
  rate : Json
  width : Json
  channels : Json
  total_bytes : Nat
  chunk_count : Nat
  wavPlayed : Option (List Nat × Json × Json × Json)

/-- Loop-entry state (src/mgtts.py lines 208-212): no process, empty PCM
buffer, default format `\x7b"rate": 22050, "width": 2, "channels": 1\x7d`. -/
def initState (streaming : Bool) (player : List Nat) : PbState :=
  { streaming := streaming, player := player, procActive := false, procGen := 0,
    writes := [], stdinClosed := false, pcm_buf := [],
    rate := Json.num 22050, width := Json.num 2, channels := Json.num 1,
    total_bytes := 0, chunk_count := 0, wavPlayed := none }

/-- One iteration of the event loop body (src/mgtts.py lines 223-263) on a
decoded `(type, data, payload)` event.  `pipe` is the environment oracle
for streaming writes: the head says whether the next `proc.stdin.write`
succeeds (`False` = `BrokenPipeError`).  Returns the new state, the
remaining oracle, and whether the loop exits (`break`). -/
def step (st : PbState) (pipe : List Bool) (ev : Json × Json × List Nat) :
    PbState × List Bool × Bool :=
  let ty := ev.1
  let data := ev.2.1
  let payload := ev.2.2
  if jsonEqStr ty audioStartKey then
    let st1 := { st with rate := getD data rateKey (Json.num 22050),
                         width := getD data widthKey (Json.num 2),
                         channels := getD data channelsKey (Json.num 1) }
    if st1.streaming then
      ({ st1 with procActive := startPlayer st1.player, writes := [], stdinClosed := false,
                  procGen := st1.procGen + (if startPlayer st1.player then 1 else 0) },
        pipe, false)
    else (st1, pipe, false)
  else if jsonEqStr ty audioChunkKey then
    if payload = [] then (st, pipe, false)
    else
      let st1 := { st with total_bytes := st.total_bytes + payload.length,
                           chunk_count := st.chunk_count + 1 }
      if st1.streaming && st1.procActive then
        match pipe with
        | ok :: rest =>
          if ok then ({ st1 with writes := st1.writes ++ [payload] }, rest, false)
          else (st1, rest, true)
        | [] => ({ st1 with writes := st1.writes ++ [payload] }, [], false)
      else ({ st1 with pcm_buf := st1.pcm_buf ++ payload }, pipe, false)
  else if jsonEqStr ty audioStopKey then
    if st.streaming && st.procActive then ({ st with stdinClosed := true }, pipe, true)
    else if st.pcm_buf = [] then (st, pipe, true)
    else ({ st with wavPlayed := some (st.pcm_buf, st.rate, st.width, st.channels) },
      pipe, true)
  else (st, pipe, false)

/-- The `while True` event loop (src/mgtts.py lines 216-263): run `step`
over the decoded events until a `break`; returns the final state and the
events left unprocessed after the loop exits. -/
def runLoop : PbState → List Bool → List (Json × Json × List Nat) →
    PbState × List (Json × Json × List Nat)
  | st, _, [] => (st, [])
  | st, pipe, ev :: evs =>
    let r := step st pipe ev
    if r.2.2 then (r.1, evs) else runLoop r.1 r.2.1 evs

/-- A whole session around the loop: however the loop exits, the `finally`
block (src/mgtts.py lines 268-269) closes the socket; the final `Bool` is
that the connection was closed. -/
def session (st : PbState) (pipe : List Bool) (evs : List (Json × Json × List Nat)) :
    (PbState × List (Json × Json × List Nat)) × Bool :=
  (runLoop st pipe evs, true)

/-- Python truthiness of an optional string (`voice or speaker`,
src/mgtts.py line 171: `None` and the empty string are falsy). -/
def optTruthy : Option (List Nat) → Bool
  | none => false
  | some s => !(decide (s = []))

/-- The synthesize event data (src/mgtts.py lines 169-177): `text` always,
a `voice` sub-object only when a voice or speaker selector is truthy, with
`name` exactly when the voice is and `speaker` exactly when the speaker
is. -/
def buildSynthData (text : List Nat) (voice spk : Option (List Nat)) : Json :=
  let d := insertKey [] textKey (Json.str text)
  if optTruthy voice || optTruthy spk then
    let v0 : List (List Nat × Json) := []
    let v1 := if optTruthy voice then insertKey v0 nameKey (Json.str (voice.getD [])) else v0
    let v2 := if optTruthy spk then insertKey v1 speakerKey (Json.str (spk.getD [])) else v1
    Json.obj (insertKey d voiceKey (Json.obj v2))
  else Json.obj d

/-- The single request the client sends before entering the event loop
(src/mgtts.py line 206): one `synthesize` event carrying the built data
and no payload. -/
def synthRequest (text : List Nat) (voice spk : Option (List Nat)) : List Nat :=
  send_event synthesizeKey (buildSynthData text voice spk) []

/-- Possible first characters of a serialized JSON value. -/
def headOK (c : Nat) : Prop :=
  c = 34 ∨ c = 91 ∨ c = 123 ∨ c = 110 ∨ c = 116 ∨ c = 102 ∨ c = 45 ∨ (48 ≤ c ∧ c ≤ 57)

/-! ### Round-trip of the numeral printer and the integer token parser -/

/-- The input does not start with a decimal digit character (so a greedy
digit run split cannot extend into it). -/
def noDigitHead : List Nat → Prop
  | [] => True
  | c :: _ => ¬(48 ≤ c ∧ c ≤ 57)

theorem natBytesRec_digits (fuel : Nat) : ∀ n, n ≤ fuel →
    ∀ c ∈ natBytesRec fuel n, 48 ≤ c ∧ c ≤ 57 := by
  induction fuel with
  | zero => intro n _ c hc; simp [natBytesRec] at hc
  | succ f ih =>
    intro n hn c hc
    match n with
    | 0 => simp [natBytesRec] at hc
    | n + 1 =>
      simp only [natBytesRec, List.mem_append, List.mem_singleton] at hc
      rcases hc with hc | hc
      · exact ih ((n + 1) / 10) (by omega) c hc
      · subst hc; constructor <;> omega

theorem natBytesRec_ne_nil (fuel n : Nat) (h0 : 0 < n) (hn : n ≤ fuel) :
    natBytesRec fuel n ≠ [] := by
  match fuel, n with
  | 0, n => omega
  | f + 1, 0 => omega
  | f + 1, m + 1 => simp [natBytesRec]

theorem digitsVal_append_one (ds : List Nat) (d : Nat) :
    digitsVal (ds ++ [d]) = digitsVal ds * 10 + (d - 48) := by
  simp [digitsVal, List.foldl_append]

theorem natBytesRec_val (fuel : Nat) : ∀ n, n ≤ fuel →
    digitsVal (natBytesRec fuel n) = n := by
  induction fuel with
  | zero => intro n hn; interval_cases n; simp [natBytesRec, digitsVal]
  | succ f ih =>
    intro n hn
    match n with
    | 0 => simp [natBytesRec, digitsVal]
    | n + 1 =>
      rw [natBytesRec, digitsVal_append_one, ih ((n + 1) / 10) (by omega)]
      omega

theorem natBytesRec_headD (fuel : Nat) : ∀ n, 0 < n → n ≤ fuel →
    (natBytesRec fuel n).headD 0 ≠ 48 := by
  induction fuel with
  | zero => intro n h0 hn; omega
  | succ f ih =>
    intro n h0 hn
    match n with
    | n + 1 =>
      rw [natBytesRec]
      by_cases hq : (n + 1) / 10 = 0
      · rw [hq]
        have : natBytesRec f 0 = [] := by cases f <;> simp [natBytesRec]
        rw [this]
        simp
        omega
      · have hne := natBytesRec_ne_nil f ((n + 1) / 10) (by omega) (by omega)
        have := ih ((n + 1) / 10) (by omega) (by omega)
        cases h : natBytesRec f ((n + 1) / 10) with
        | nil => exact absurd h hne
        | cons a as => rw [h] at this; simpa using this

theorem natBytes_digits (n : Nat) : ∀ c ∈ natBytes n, 48 ≤ c ∧ c ≤ 57 := by
  intro c hc
  unfold natBytes at hc
  by_cases h : n = 0
  · simp [h] at hc; omega
  · rw [if_neg h] at hc; exact natBytesRec_digits n n le_rfl c hc

theorem natBytes_ne_nil (n : Nat) : natBytes n ≠ [] := by
  unfold natBytes
  by_cases h : n = 0
  · simp [h]
  · rw [if_neg h]; exact natBytesRec_ne_nil n n (by omega) le_rfl

theorem natBytes_val (n : Nat) : digitsVal (natBytes n) = n := by
  unfold natBytes
  by_cases h : n = 0
  · simp [h, digitsVal]
  · rw [if_neg h]; exact natBytesRec_val n n le_rfl

theorem natBytes_no_leading_zero (n : Nat) (h : 1 < (natBytes n).length) :
    (natBytes n).headD 0 ≠ 48 := by
  unfold natBytes at h ⊢
  by_cases h0 : n = 0
  · simp [h0] at h
  · rw [if_neg h0] at h ⊢; exact natBytesRec_headD n n (by omega) le_rfl

theorem splitDigits_append (ds rest : List Nat) (hds : ∀ c ∈ ds, 48 ≤ c ∧ c ≤ 57)
    (hr : noDigitHead rest) : splitDigits (ds ++ rest) = (ds, rest) := by
  induction ds with
  | nil =>
    simp only [List.nil_append]
    cases rest with
    | nil => rfl
    | cons c r =>
      simp only [noDigitHead] at hr
      simp only [splitDigits]
      rw [if_neg (by simpa using hr)]
  | cons c ds ih =>
    have hc := hds c (by simp)
    have ih2 := ih (fun d hd => hds d (by simp [hd]))
    simp only [List.cons_append, splitDigits, List.append_eq]
    rw [if_pos (by simpa using hc), ih2]

theorem parseDigitsTok_natBytes (neg : Bool) (m : Nat) (rest : List Nat)
    (hr : noDigitHead rest) :
    parseDigitsTok neg (natBytes m ++ rest) =
      some ((if neg then -(m : Int) else (m : Int)), rest) := by
  unfold parseDigitsTok
  rw [splitDigits_append _ _ (natBytes_digits _) hr]
  simp only
  rw [if_neg (by simpa using natBytes_ne_nil m)]
  rw [if_neg ?_]
  · rw [natBytes_val]
  · intro hcontra
    simp only [Bool.and_eq_true, decide_eq_true_eq] at hcontra
    exact natBytes_no_leading_zero m hcontra.1 hcontra.2

theorem parseIntTok_intBytes (n : Int) (rest : List Nat) (hr : noDigitHead rest) :
    parseIntTok (intBytes n ++ rest) = some (n, rest) := by
  by_cases hneg : n < 0
  · rw [intBytes, if_pos hneg]
    simp only [List.cons_append, parseIntTok, if_pos rfl]
    rw [parseDigitsTok_natBytes _ _ _ hr]
    simp only [if_pos rfl, Option.some.injEq, Prod.mk.injEq, and_true]
    rw [Int.toNat_of_nonneg (by omega : (0 : Int) ≤ -n)]
    simp
  · rw [intBytes, if_neg hneg]
    cases h : natBytes n.toNat with
    | nil => exact absurd h (natBytes_ne_nil _)
    | cons a as =>
      have ha : 48 ≤ a ∧ a ≤ 57 := natBytes_digits n.toNat a (by rw [h]; simp)
      simp only [List.cons_append, parseIntTok]
      rw [if_neg (by omega)]
      rw [show a :: (as ++ rest) = natBytes n.toNat ++ rest by rw [h]; simp]
      rw [parseDigitsTok_natBytes _ _ _ hr]
      simp only [Bool.false_eq_true, if_false, Option.some.injEq, Prod.mk.injEq, and_true]
      omega

/-! ### Round-trip of string escaping -/

theorem goodChar_spec (c : Nat) (h : goodChar c = true) :
    c < 1114112 ∧ ¬(55296 ≤ c ∧ c < 57344) := by
  simp [goodChar] at h
  exact ⟨by omega, by omega⟩

theorem hexVal_hexDigitChar (d : Nat) (h : d < 16) : hexVal (hexDigitChar d) = some d := by
  unfold hexVal hexDigitChar
  by_cases h10 : d < 10
  · rw [if_pos h10, if_pos (by simp; omega)]
    simp
  · rw [if_neg h10, if_neg (by simp; omega), if_pos (by simp; omega)]
    simp

theorem hexVal4_hex4 (n : Nat) (h : n < 65536) :
    hexVal4 (hexDigitChar (n / 4096 % 16)) (hexDigitChar (n / 256 % 16))
      (hexDigitChar (n / 16 % 16)) (hexDigitChar (n % 16)) = some n := by
  unfold hexVal4
  rw [hexVal_hexDigitChar _ (by omega), hexVal_hexDigitChar _ (by omega),
    hexVal_hexDigitChar _ (by omega), hexVal_hexDigitChar _ (by omega)]
  simp only [Option.some.injEq]
  omega

theorem escapeChar_ne_nil (c : Nat) : escapeChar c ≠ [] := by
  unfold escapeChar
  repeat (first | split | simp | intro h)

theorem escapeStr_length_ge (s : List Nat) : s.length ≤ (escapeStr s).length := by
  induction s with
  | nil => simp [escapeStr]
  | cons c s ih =>
    have h1 : 0 < (escapeChar c).length := List.length_pos.mpr (escapeChar_ne_nil c)
    simp only [escapeStr, List.flatMap_cons, List.length_append, List.length_cons]
    simp only [escapeStr] at ih
    omega

theorem parseStrBody_pair (f : Nat) (hi lo : Nat) (tail : List Nat)
    (h1 : 55296 ≤ hi) (h2 : hi < 56320) (h3 : 56320 ≤ lo) (h4 : lo < 57344) :
    parseStrBody (f + 1) (92 :: 117 :: (hex4 hi ++ (92 :: 117 :: (hex4 lo ++ tail)))) =
      consChar (65536 + (hi - 55296) * 1024 + (lo - 56320)) (parseStrBody f tail) := by
  simp only [hex4, List.cons_append, List.nil_append, List.append_assoc]
  simp only [parseStrBody]
  rw [hexVal4_hex4 hi (by omega : hi < 65536)]
  rw [hexVal4_hex4 lo (by omega : lo < 65536)]
  simp [consChar]
  rw [if_pos (show 55296 ≤ hi ∧ hi < 56320 from ⟨h1, h2⟩),
    if_pos (show 56320 ≤ lo ∧ lo < 57344 from ⟨h3, h4⟩)]

theorem parseStrBody_escapeChar (c : Nat) (f : Nat) (tail : List Nat)
    (hgc : goodChar c = true) :
    parseStrBody (f + 1) (escapeChar c ++ tail) = consChar c (parseStrBody f tail) := by
  obtain ⟨hlt, hsur⟩ := goodChar_spec c hgc
  by_cases h34 : c = 34
  · subst h34; rfl
  by_cases h92 : c = 92
  · subst h92; rfl
  by_cases h8 : c = 8
  · subst h8; rfl
  by_cases h9 : c = 9
  · subst h9; rfl
  by_cases h10 : c = 10
  · subst h10; rfl
  by_cases h12 : c = 12
  · subst h12; rfl
  by_cases h13 : c = 13
  · subst h13; rfl
  by_cases hprint : 32 ≤ c ∧ c ≤ 126
  · have he : escapeChar c = [c] := by
      unfold escapeChar
      rw [if_neg h34, if_neg h92, if_neg h8, if_neg h9, if_neg h10, if_neg h12,
        if_neg h13, if_pos (by simp; omega)]
    rw [he]
    simp only [List.cons_append, List.nil_append, parseStrBody]
    rw [if_neg h34, if_neg h92, if_neg (show ¬c < 32 by omega)]
  by_cases hbmp : c < 65536
  · have he : escapeChar c = 92 :: 117 :: hex4 c := by
      unfold escapeChar
      rw [if_neg h34, if_neg h92, if_neg h8, if_neg h9, if_neg h10, if_neg h12,
        if_neg h13, if_neg (by simp; omega), if_pos hbmp]
    rw [he]
    simp only [hex4, List.cons_append, List.nil_append, List.append_assoc]
    simp [parseStrBody, hexVal4_hex4 c (by omega : c < 65536),
      if_neg (by omega : ¬(55296 ≤ c ∧ c < 56320)), consChar]
  · have he : escapeChar c =
        92 :: 117 :: hex4 (55296 + (c - 65536) / 1024) ++
          92 :: 117 :: hex4 (56320 + (c - 65536) % 1024) := by
      unfold escapeChar
      rw [if_neg h34, if_neg h92, if_neg h8, if_neg h9, if_neg h10, if_neg h12,
        if_neg h13, if_neg (by simp; omega), if_neg hbmp]
    rw [he]
    rw [show (92 :: 117 :: hex4 (55296 + (c - 65536) / 1024) ++
        92 :: 117 :: hex4 (56320 + (c - 65536) % 1024)) ++ tail =
        92 :: 117 :: (hex4 (55296 + (c - 65536) / 1024) ++
          (92 :: 117 :: (hex4 (56320 + (c - 65536) % 1024) ++ tail))) from by simp]
    rw [parseStrBody_pair f _ _ tail (by omega) (by omega) (by omega) (by omega)]
    rw [show 65536 + (55296 + (c - 65536) / 1024 - 55296) * 1024 +
        (56320 + (c - 65536) % 1024 - 56320) = c from by omega]

theorem parseStrBody_escape (s : List Nat) : ∀ (fuel : Nat) (rest : List Nat),
    strWFb s = true → s.length < fuel →
    parseStrBody fuel (escapeStr s ++ 34 :: rest) = some (s, rest) := by
  induction s with
  | nil =>
    intro fuel rest _ hf
    cases fuel with
    | zero => omega
    | succ f => simp [escapeStr, parseStrBody]
  | cons c s ih =>
    intro fuel rest hwf hf
    simp only [strWFb, List.all_cons, Bool.and_eq_true] at hwf
    obtain ⟨hgc, hs⟩ := hwf
    cases fuel with
    | zero => simp at hf
    | succ f =>
    have ihs := ih f rest hs (by simp at hf; omega)
    rw [show escapeStr (c :: s) = escapeChar c ++ escapeStr s by simp [escapeStr],
      List.append_assoc, parseStrBody_escapeChar c f _ hgc, ihs]
    rfl

/-! ### Round-trip of full serialization -/

theorem skipWs_cons_nws (c : Nat) (r : List Nat) (h32 : c ≠ 32) (h9 : c ≠ 9)
    (h10 : c ≠ 10) (h13 : c ≠ 13) : skipWs (c :: r) = c :: r := by
  simp [skipWs, h32, h9, h10, h13]

theorem intBytes_ne_nil (n : Int) : intBytes n ≠ [] := by
  unfold intBytes
  by_cases h : n < 0
  · simp [h]
  · rw [if_neg h]; exact natBytes_ne_nil _

theorem intBytes_head (n : Int) :
    ∃ c cs, intBytes n = c :: cs ∧ (c = 45 ∨ (48 ≤ c ∧ c ≤ 57)) := by
  unfold intBytes
  by_cases h : n < 0
  · exact ⟨45, natBytes (-n).toNat, by simp [h], Or.inl rfl⟩
  · rw [if_neg h]
    cases hn : natBytes n.toNat with
    | nil => exact absurd hn (natBytes_ne_nil _)
    | cons a as =>
      exact ⟨a, as, rfl, Or.inr (natBytes_digits n.toNat a (by rw [hn]; simp))⟩

theorem dumps_head (j : Json) : ∃ c cs, dumps j = c :: cs ∧ headOK c := by
  cases j with
  | null => exact ⟨110, _, rfl, by simp [headOK]⟩
  | bool b =>
    cases b with
    | true => exact ⟨116, _, rfl, by simp [headOK]⟩
    | false => exact ⟨102, _, rfl, by simp [headOK]⟩
  | num n =>
    obtain ⟨c, cs, h, hc⟩ := intBytes_head n
    exact ⟨c, cs, h, by simp [headOK]; tauto⟩
  | str s => exact ⟨34, _, rfl, by simp [headOK]⟩
  | arr xs => exact ⟨91, _, rfl, by simp [headOK]⟩
  | obj fs => exact ⟨123, _, rfl, by simp [headOK]⟩

theorem dumps_ne_nil (j : Json) : dumps j ≠ [] := by
  obtain ⟨c, cs, h, _⟩ := dumps_head j
  simp [h]

theorem dumpsElems_eq_cons (x : Json) (xs : List Json) :
    ∃ t, dumpsElems (x :: xs) = dumps x ++ t := by
  cases xs with
  | nil => exact ⟨[], by simp [dumpsElems]⟩
  | cons y ys => exact ⟨44 :: dumpsElems (y :: ys), by simp [dumpsElems]⟩

theorem insertKey_not_mem (acc : List (List Nat × Json)) (key : List Nat) (v : Json)
    (h : lookupField acc key = none) : insertKey acc key v = acc ++ [(key, v)] := by
  induction acc with
  | nil => rfl
  | cons g acc ih =>
    obtain ⟨k0, v0⟩ := g
    simp only [lookupField] at h
    by_cases hk : k0 = key
    · rw [if_pos hk] at h; exact absurd h (by simp)
    · rw [if_neg hk] at h
      simp only [insertKey, if_neg hk, List.cons_append, List.cons.injEq, true_and]
      exact ih h

theorem lookupField_append_none (acc : List (List Nat × Json)) (g k : List Nat) (v : Json)
    (h : lookupField acc g = none) (hne : g ≠ k) :
    lookupField (acc ++ [(k, v)]) g = none := by
  induction acc with
  | nil => simp [lookupField]; exact fun h2 => hne h2.symm
  | cons p acc ih =>
    obtain ⟨k0, v0⟩ := p
    simp only [lookupField] at h ⊢
    by_cases hk : k0 = g
    · rw [if_pos hk] at h; exact absurd h (by simp)
    · rw [if_neg hk] at h ⊢
      exact ih h

theorem dumps_arr_shape (xs : List Json) (rest : List Nat) :
    dumps (Json.arr xs) ++ rest = 91 :: (dumpsElems xs ++ 93 :: rest) := by
  simp [dumps]

theorem dumps_obj_shape (fs : List (List Nat × Json)) (rest : List Nat) :
    dumps (Json.obj fs) ++ rest = 123 :: (dumpsFields fs ++ 125 :: rest) := by
  simp [dumps]

theorem dumpsElems_len_cons (x y : Json) (ys : List Json) :
    (dumpsElems (x :: y :: ys)).length =
      (dumps x).length + 1 + (dumpsElems (y :: ys)).length := by
  simp [dumpsElems]
  omega

theorem dumpsFields_len_one (k : List Nat) (v : Json) :
    (dumpsFields [(k, v)]).length = (escapeStr k).length + 3 + (dumps v).length := by
  simp [dumpsFields, dumpsStr]
  omega

theorem dumpsFields_len_cons (k : List Nat) (v : Json) (g : List Nat × Json)
    (fs : List (List Nat × Json)) :
    (dumpsFields ((k, v) :: g :: fs)).length =
      (escapeStr k).length + 4 + (dumps v).length + (dumpsFields (g :: fs)).length := by
  simp [dumpsFields, dumpsStr]
  omega

theorem headOK_facts (c : Nat) (h : headOK c) :
    c ≠ 32 ∧ c ≠ 9 ∧ c ≠ 10 ∧ c ≠ 13 ∧ c ≠ 93 ∧ c ≠ 125 ∧ c ≠ 44 ∧ c ≠ 58 := by
  rcases h with h | h | h | h | h | h | h | h <;> omega

theorem dumpsFields_head (k : List Nat) (v : Json) (fs1 : List (List Nat × Json)) :
    ∃ tf, dumpsFields ((k, v) :: fs1) = 34 :: tf := by
  cases fs1 with
  | nil => exact ⟨escapeStr k ++ [34] ++ 58 :: dumps v, by simp [dumpsFields, dumpsStr]⟩
  | cons gg fs2 =>
    obtain ⟨k2, v2⟩ := gg
    exact ⟨escapeStr k ++ [34] ++ 58 :: (dumps v ++ 44 :: dumpsFields ((k2, v2) :: fs2)),
      by simp [dumpsFields, dumpsStr]⟩

mutual

theorem parseVal_dumps : ∀ (j : Json) (fuel : Nat) (rest : List Nat),
    wfb j = true → 6 * (dumps j).length + 1 ≤ fuel → noDigitHead rest →
    parseVal fuel (dumps j ++ rest) = some (j, rest)
  | .null, fuel, rest => by
    intro hwf hfu hrest
    obtain ⟨g, rfl⟩ : ∃ g, fuel = (g + 1) + 1 :=
      ⟨fuel - 2, by simp [dumps] at hfu; omega⟩
    rfl
  | .bool b, fuel, rest => by
    intro hwf hfu hrest
    obtain ⟨g, rfl⟩ : ∃ g, fuel = (g + 1) + 1 :=
      ⟨fuel - 2, by cases b <;> simp [dumps] at hfu <;> omega⟩
    cases b <;> rfl
  | .str s1, fuel, rest => by
    intro hwf hfu hrest
    obtain ⟨g, rfl⟩ : ∃ g, fuel = (g + 1) + 1 :=
      ⟨fuel - 2, by have := List.length_pos.mpr (dumps_ne_nil (Json.str s1)); omega⟩
    have hshape : dumps (Json.str s1) ++ rest = 34 :: (escapeStr s1 ++ 34 :: rest) := by
      simp [dumps, dumpsStr]
    rw [hshape]
    simp only [parseVal]
    rw [skipWs_cons_nws 34 _ (by decide) (by decide) (by decide) (by decide)]
    simp only [parseValCore]
    rw [if_pos trivial]
    rw [parseStrBody_escape s1 _ rest (by simpa [wfb] using hwf)
      (by simp only [List.length_append, List.length_cons]
          have := escapeStr_length_ge s1
          omega)]
    rfl
  | .num n, fuel, rest => by
    intro hwf hfu hrest
    obtain ⟨g, rfl⟩ : ∃ g, fuel = (g + 1) + 1 :=
      ⟨fuel - 2, by have := List.length_pos.mpr (dumps_ne_nil (Json.num n)); omega⟩
    by_cases hneg : n < 0
    · have hshape : dumps (Json.num n) ++ rest = 45 :: (natBytes (-n).toNat ++ rest) := by
        simp [dumps, intBytes, hneg]
      rw [hshape]
      simp only [parseVal]
      rw [skipWs_cons_nws 45 _ (by decide) (by decide) (by decide) (by decide)]
      simp only [parseValCore]
      rw [if_neg (by decide), if_neg (by decide), if_neg (by decide), if_neg (by decide),
        if_neg (by decide), if_neg (by decide), if_pos (Or.inl trivial)]
      rw [show (45 : Nat) :: (natBytes (-n).toNat ++ rest) = intBytes n ++ rest from by
        simp [intBytes, hneg]]
      rw [parseIntTok_intBytes n rest hrest]
      rfl
    · cases hnb : natBytes n.toNat with
      | nil => exact absurd hnb (natBytes_ne_nil _)
      | cons a as =>
        have ha : 48 ≤ a ∧ a ≤ 57 := natBytes_digits n.toNat a (by rw [hnb]; simp)
        have hshape : dumps (Json.num n) ++ rest = a :: (as ++ rest) := by
          simp [dumps, intBytes, hneg, hnb]
        rw [hshape]
        simp only [parseVal]
        rw [skipWs_cons_nws a _ (by omega) (by omega) (by omega) (by omega)]
        simp only [parseValCore]
        rw [if_neg (by omega), if_neg (by omega), if_neg (by omega), if_neg (by omega),
          if_neg (by omega), if_neg (by omega), if_pos (Or.inr ha)]
        rw [show a :: (as ++ rest) = intBytes n ++ rest from by
          simp [intBytes, hneg, hnb]]
        rw [parseIntTok_intBytes n rest hrest]
        rfl
  | .arr [], fuel, rest => by
    intro hwf hfu hrest
    obtain ⟨g, rfl⟩ : ∃ g, fuel = ((g + 1) + 1) + 1 :=
      ⟨fuel - 3, by simp [dumps, dumpsElems] at hfu; omega⟩
    rfl
  | .arr (x :: xs1), fuel, rest => by
    intro hwf hfu hrest
    obtain ⟨g, rfl⟩ : ∃ g, fuel = ((g + 1) + 1) + 1 :=
      ⟨fuel - 3, by have := List.length_pos.mpr (dumps_ne_nil (Json.arr (x :: xs1))); omega⟩
    rw [dumps_arr_shape]
    simp only [parseVal]
    rw [skipWs_cons_nws 91 _ (by decide) (by decide) (by decide) (by decide)]
    simp only [parseValCore]
    rw [if_neg (by decide), if_pos trivial]
    obtain ⟨c0, cs0, hdx, hok⟩ := dumps_head x
    obtain ⟨t, ht⟩ := dumpsElems_eq_cons x xs1
    have hd2 : dumpsElems (x :: xs1) ++ 93 :: rest = c0 :: (cs0 ++ t ++ 93 :: rest) := by
      rw [ht, hdx]; simp
    obtain ⟨hc32, hc9, hc10, hc13, hc93, _, _, _⟩ := headOK_facts c0 hok
    rw [hd2, skipWs_cons_nws c0 _ hc32 hc9 hc10 hc13]
    simp only [parseArrCore]
    rw [if_neg hc93, ← hd2]
    have hlen : (dumps (Json.arr (x :: xs1))).length = (dumpsElems (x :: xs1)).length + 2 := by
      simp [dumps]
    have hres := parseElems_dumps (x :: xs1) g [] rest (by simp)
      (by simpa [wfb] using hwf) (by omega)
    simpa using hres
  | .obj [], fuel, rest => by
    intro hwf hfu hrest
    obtain ⟨g, rfl⟩ : ∃ g, fuel = ((g + 1) + 1) + 1 :=
      ⟨fuel - 3, by simp [dumps, dumpsFields] at hfu; omega⟩
    rfl
  | .obj ((k, v) :: fs1), fuel, rest => by
    intro hwf hfu hrest
    obtain ⟨g, rfl⟩ : ∃ g, fuel = ((g + 1) + 1) + 1 :=
      ⟨fuel - 3, by
        have := List.length_pos.mpr (dumps_ne_nil (Json.obj ((k, v) :: fs1))); omega⟩
    rw [dumps_obj_shape]
    simp only [parseVal]
    rw [skipWs_cons_nws 123 _ (by decide) (by decide) (by decide) (by decide)]
    simp only [parseValCore]
    rw [if_neg (by decide), if_neg (by decide), if_pos trivial]
    obtain ⟨tf, htf⟩ := dumpsFields_head k v fs1
    have hd2 : dumpsFields ((k, v) :: fs1) ++ 125 :: rest = 34 :: (tf ++ 125 :: rest) := by
      rw [htf]; simp
    rw [hd2, skipWs_cons_nws 34 _ (by decide) (by decide) (by decide) (by decide)]
    simp only [parseObjCore]
    rw [if_neg (by decide), ← hd2]
    have hlen : (dumps (Json.obj ((k, v) :: fs1))).length =
        (dumpsFields ((k, v) :: fs1)).length + 2 := by
      simp [dumps]
    have hres := parseFields_dumps ((k, v) :: fs1) g [] rest (by simp)
      (by simpa [wfb] using hwf) (fun gg hgg => rfl) (by omega)
    simpa using hres
termination_by j => sizeOf j

theorem parseElems_dumps : ∀ (xs : List Json) (fuel : Nat) (acc : List Json) (rest : List Nat),
    xs ≠ [] → wfbElems xs = true → 6 * (dumpsElems xs).length + 2 ≤ fuel →
    parseElems fuel (dumpsElems xs ++ 93 :: rest) acc = some (Json.arr (acc ++ xs), rest)
  | [], _, _, _ => by intro hne _ _; exact absurd rfl hne
  | [x], fuel, acc, rest => by
    intro hne hwf hfu
    have hwx : wfb x = true := by simpa [wfbElems, Bool.and_eq_true] using hwf
    have hdxlen : 1 ≤ (dumps x).length := List.length_pos.mpr (dumps_ne_nil x)
    obtain ⟨g, rfl⟩ : ∃ g, fuel = ((g + 1) + 1) + 1 :=
      ⟨fuel - 3, by simp [dumpsElems] at hfu; omega⟩
    simp only [parseElems]
    have hsh : dumpsElems [x] ++ 93 :: rest = dumps x ++ 93 :: rest := by
      simp [dumpsElems]
    rw [hsh, parseVal_dumps x ((g + 1) + 1) (93 :: rest) hwx
      (by simp [dumpsElems] at hfu; omega) (by simp [noDigitHead])]
    simp only [parseElemsStep]
    rw [skipWs_cons_nws 93 _ (by decide) (by decide) (by decide) (by decide)]
    simp only [parseElemsSep]
    rw [if_neg (by decide), if_pos trivial]
  | x :: y :: ys, fuel, acc, rest => by
    intro hne hwf hfu
    have hwx : wfb x = true ∧ wfbElems (y :: ys) = true := by
      simpa [wfbElems, Bool.and_eq_true] using hwf
    have hdxlen : 1 ≤ (dumps x).length := List.length_pos.mpr (dumps_ne_nil x)
    obtain ⟨g, rfl⟩ : ∃ g, fuel = ((g + 1) + 1) + 1 :=
      ⟨fuel - 3, by have := dumpsElems_len_cons x y ys; omega⟩
    simp only [parseElems]
    have hsh : dumpsElems (x :: y :: ys) ++ 93 :: rest =
        dumps x ++ (44 :: (dumpsElems (y :: ys) ++ 93 :: rest)) := by
      simp [dumpsElems]
    rw [hsh, parseVal_dumps x ((g + 1) + 1) (44 :: (dumpsElems (y :: ys) ++ 93 :: rest)) hwx.1
      (by have := dumpsElems_len_cons x y ys; omega) (by simp [noDigitHead])]
    simp only [parseElemsStep]
    rw [skipWs_cons_nws 44 _ (by decide) (by decide) (by decide) (by decide)]
    simp only [parseElemsSep]
    rw [if_pos trivial]
    rw [parseElems_dumps (y :: ys) g (acc ++ [x]) rest (by simp) hwx.2
      (by have := dumpsElems_len_cons x y ys; omega)]
    simp
termination_by xs => sizeOf xs

theorem parseFields_dumps : ∀ (fs : List (List Nat × Json)) (fuel : Nat)
    (acc : List (List Nat × Json)) (rest : List Nat),
    fs ≠ [] → wfbFields fs = true → (∀ gg ∈ fs, lookupField acc gg.1 = none) →
    6 * (dumpsFields fs).length + 2 ≤ fuel →
    parseFields fuel (dumpsFields fs ++ 125 :: rest) acc = some (Json.obj (acc ++ fs), rest)
  | [], _, _, _ => by intro hne _ _ _; exact absurd rfl hne
  | [(k, v)], fuel, acc, rest => by
    intro hne hwf hdisj hfu
    have hw0 := hwf
    simp only [wfbFields, Bool.and_eq_true] at hw0
    obtain ⟨⟨⟨hk, hv⟩, hall⟩, hfs1⟩ := hw0
    obtain ⟨g, rfl⟩ : ∃ g, fuel = (((((g + 1) + 1) + 1) + 1) + 1) + 1 :=
      ⟨fuel - 6, by have := dumpsFields_len_one k v; omega⟩
    have hsh : dumpsFields [(k, v)] ++ 125 :: rest =
        34 :: (escapeStr k ++ 34 :: (58 :: (dumps v ++ 125 :: rest))) := by
      simp [dumpsFields, dumpsStr]
    rw [hsh]
    simp only [parseFields]
    rw [skipWs_cons_nws 34 _ (by decide) (by decide) (by decide) (by decide)]
    simp only [parseFieldsCore]
    rw [if_pos trivial]
    rw [parseStrBody_escape k _ _ hk
      (by simp only [List.length_append, List.length_cons]
          have := escapeStr_length_ge k
          omega)]
    simp only [parseFieldsKey]
    rw [skipWs_cons_nws 58 _ (by decide) (by decide) (by decide) (by decide)]
    simp only [parseFieldsColon]
    rw [if_pos trivial]
    rw [parseVal_dumps v ((g + 1) + 1) (125 :: rest) hv
      (by have := dumpsFields_len_one k v; omega) (by simp [noDigitHead])]
    simp only [parseFieldsVal]
    rw [skipWs_cons_nws 125 _ (by decide) (by decide) (by decide) (by decide)]
    simp only [parseFieldsSep]
    rw [if_neg (by decide), if_pos trivial]
    rw [insertKey_not_mem acc k v (hdisj (k, v) (by simp))]
  | (k, v) :: (k2, v2) :: fs2, fuel, acc, rest => by
    intro hne hwf hdisj hfu
    have hw0 := hwf
    simp only [wfbFields, Bool.and_eq_true] at hw0
    obtain ⟨⟨⟨hk, hv⟩, hall⟩, hfs1⟩ := hw0
    have hkey : ∀ gg ∈ (k2, v2) :: fs2, gg.1 ≠ k := by
      intro gg hgg
      have := List.all_eq_true.mp hall gg hgg
      simpa using this
    obtain ⟨g, rfl⟩ : ∃ g, fuel = (((((g + 1) + 1) + 1) + 1) + 1) + 1 :=
      ⟨fuel - 6, by have := dumpsFields_len_cons k v (k2, v2) fs2; omega⟩
    have hsh : dumpsFields ((k, v) :: (k2, v2) :: fs2) ++ 125 :: rest =
        34 :: (escapeStr k ++ 34 ::
          (58 :: (dumps v ++ 44 :: (dumpsFields ((k2, v2) :: fs2) ++ 125 :: rest)))) := by
      simp [dumpsFields, dumpsStr]
    rw [hsh]
    simp only [parseFields]
    rw [skipWs_cons_nws 34 _ (by decide) (by decide) (by decide) (by decide)]
    simp only [parseFieldsCore]
    rw [if_pos trivial]
    rw [parseStrBody_escape k _ _ hk
      (by simp only [List.length_append, List.length_cons]
          have := escapeStr_length_ge k
          omega)]
    simp only [parseFieldsKey]
    rw [skipWs_cons_nws 58 _ (by decide) (by decide) (by decide) (by decide)]
    simp only [parseFieldsColon]
    rw [if_pos trivial]
    rw [parseVal_dumps v ((g + 1) + 1)
      (44 :: (dumpsFields ((k2, v2) :: fs2) ++ 125 :: rest)) hv
      (by have := dumpsFields_len_cons k v (k2, v2) fs2; omega) (by simp [noDigitHead])]
    simp only [parseFieldsVal]
    rw [skipWs_cons_nws 44 _ (by decide) (by decide) (by decide) (by decide)]
    simp only [parseFieldsSep]
    rw [if_pos trivial]
    rw [insertKey_not_mem acc k v (hdisj (k, v) (by simp))]
    have hdisj2 : ∀ gg ∈ (k2, v2) :: fs2, lookupField (acc ++ [(k, v)]) gg.1 = none := by
      intro gg hgg
      exact lookupField_append_none acc gg.1 k v (hdisj gg (by simp [hgg]))
        (hkey gg hgg)
    rw [parseFields_dumps ((k2, v2) :: fs2) g (acc ++ [(k, v)]) rest (by simp)
      (by simpa [wfbFields, Bool.and_eq_true] using hfs1) hdisj2
      (by have := dumpsFields_len_cons k v (k2, v2) fs2; omega)]
    simp
termination_by fs => sizeOf fs

end

theorem hexDigitChar_ge (d : Nat) : 48 ≤ hexDigitChar d := by
  unfold hexDigitChar
  split <;> omega

theorem mem_hex4_ge (c n : Nat) (h : c ∈ hex4 n) : 48 ≤ c := by
  simp only [hex4, List.mem_cons, List.mem_singleton, List.not_mem_nil, or_false] at h
  rcases h with rfl | rfl | rfl | rfl <;> exact hexDigitChar_ge _

theorem escapeChar_ge (c b : Nat) (hb : b ∈ escapeChar c) : 32 ≤ b := by
  unfold escapeChar at hb
  iterate 9 (all_goals try split at hb)
  all_goals simp_all
  all_goals try omega
  · rcases hb with rfl | rfl | hb
    · omega
    · omega
    · have := mem_hex4_ge b _ hb; omega
  · rcases hb with rfl | rfl | hb | rfl | rfl | hb
    · omega
    · omega
    · have := mem_hex4_ge b _ hb; omega
    · omega
    · omega
    · have := mem_hex4_ge b _ hb; omega

theorem escapeStr_no_nl (s : List Nat) (b : Nat) (hb : b ∈ escapeStr s) : b ≠ 10 := by
  simp only [escapeStr, List.mem_flatMap] at hb
  obtain ⟨c, _, hbc⟩ := hb
  have := escapeChar_ge c b hbc
  omega

theorem intBytes_mem (n : Int) (b : Nat) (h : b ∈ intBytes n) :
    b = 45 ∨ (48 ≤ b ∧ b ≤ 57) := by
  unfold intBytes at h
  by_cases hneg : n < 0
  · rw [if_pos hneg] at h
    simp only [List.mem_cons] at h
    rcases h with rfl | h
    · exact Or.inl rfl
    · exact Or.inr (natBytes_digits _ b h)
  · rw [if_neg hneg] at h
    exact Or.inr (natBytes_digits _ b h)

mutual

theorem dumps_no_nl : ∀ (j : Json) (b : Nat), b ∈ dumps j → b ≠ 10
  | .null, b => by intro hb; simp [dumps] at hb; omega
  | .bool bb, b => by cases bb <;> (intro hb; simp [dumps] at hb; omega)
  | .num n, b => by
    intro hb
    have := intBytes_mem n b (by simpa [dumps] using hb)
    omega
  | .str s1, b => by
    intro hb
    simp only [dumps, dumpsStr, List.mem_cons, List.mem_append, List.mem_singleton] at hb
    rcases hb with (rfl | hb) | rfl | hnil
    · omega
    · exact escapeStr_no_nl s1 b hb
    · omega
    · simp at hnil
  | .arr xs, b => by
    intro hb
    simp only [dumps, List.mem_cons, List.mem_append, List.mem_singleton] at hb
    rcases hb with (rfl | hb) | rfl | hnil
    · omega
    · exact dumpsElems_no_nl xs b hb
    · omega
    · simp at hnil
  | .obj fs, b => by
    intro hb
    simp only [dumps, List.mem_cons, List.mem_append, List.mem_singleton] at hb
    rcases hb with (rfl | hb) | rfl | hnil
    · omega
    · exact dumpsFields_no_nl fs b hb
    · omega
    · simp at hnil
termination_by j => sizeOf j

theorem dumpsElems_no_nl : ∀ (xs : List Json) (b : Nat), b ∈ dumpsElems xs → b ≠ 10
  | [], b => by intro hb; simp [dumpsElems] at hb
  | [x], b => by
    intro hb
    exact dumps_no_nl x b (by simpa [dumpsElems] using hb)
  | x :: y :: ys, b => by
    intro hb
    simp only [dumpsElems, List.mem_append, List.mem_cons] at hb
    rcases hb with hb | rfl | hb
    · exact dumps_no_nl x b hb
    · omega
    · exact dumpsElems_no_nl (y :: ys) b (by simpa [dumpsElems] using hb)
termination_by xs => sizeOf xs

theorem dumpsFields_no_nl : ∀ (fs : List (List Nat × Json)) (b : Nat),
    b ∈ dumpsFields fs → b ≠ 10
  | [], b => by intro hb; simp [dumpsFields] at hb
  | [(k, v)], b => by
    intro hb
    simp only [dumpsFields, dumpsStr, List.mem_append, List.mem_cons,
      List.mem_singleton] at hb
    rcases hb with ((rfl | hb) | rfl | hnil) | rfl | hb
    · omega
    · exact escapeStr_no_nl k b hb
    · omega
    · simp at hnil
    · omega
    · exact dumps_no_nl v b hb
  | (k, v) :: g :: fs2, b => by
    intro hb
    simp only [dumpsFields, dumpsStr, List.mem_append, List.mem_cons,
      List.mem_singleton] at hb
    rcases hb with (((rfl | hb) | rfl | hnil) | rfl | hb) | rfl | hb
    · omega
    · exact escapeStr_no_nl k b hb
    · omega
    · simp at hnil
    · omega
    · exact dumps_no_nl v b hb
    · omega
    · exact dumpsFields_no_nl (g :: fs2) b (by simpa [dumpsFields] using hb)
termination_by fs => sizeOf fs

end

theorem loads_dumps (j : Json) (h : wfb j = true) : loads (dumps j) = some j := by
  unfold loads
  have hpv := parseVal_dumps j (6 * (dumps j).length + 6) [] h (by omega) trivial
  rw [show dumps j ++ ([] : List Nat) = dumps j from by simp] at hpv
  rw [hpv]
  rfl

theorem readHeaderLoop_none (s : List Nat) : ∀ (o buf : List Nat), splitLine s = none →
    readHeaderLoop o s buf = .error .connClosed := by
  induction s with
  | nil => intro o buf _; rfl
  | cons c rest ih =>
    intro o buf hsl
    simp only [splitLine] at hsl
    by_cases hc : c = 10
    · rw [if_pos hc] at hsl; simp at hsl
    · rw [if_neg hc] at hsl
      simp only [readHeaderLoop, if_neg hc]
      exact ih o.tail (buf ++ [c]) (by
        cases h : splitLine rest with
        | none => rfl
        | some p => rw [h] at hsl; simp at hsl)

theorem readHeaderLoop_some (s : List Nat) : ∀ (o buf l r : List Nat),
    splitLine s = some (l, r) →
    ∃ oo, readHeaderLoop o s buf = .ok (buf ++ l, r, oo) := by
  induction s with
  | nil => intro o buf l r hsl; simp [splitLine] at hsl
  | cons c rest ih =>
    intro o buf l r hsl
    simp only [splitLine] at hsl
    by_cases hc : c = 10
    · rw [if_pos hc] at hsl
      simp only [Option.some.injEq, Prod.mk.injEq] at hsl
      obtain ⟨hl, hr⟩ := hsl
      subst hc
      refine ⟨o.tail, ?_⟩
      simp [readHeaderLoop, ← hl, hr]
    · rw [if_neg hc] at hsl
      cases h : splitLine rest with
      | none => rw [h] at hsl; simp at hsl
      | some p =>
        rw [h] at hsl
        simp only [Option.map_some', Option.some.injEq, Prod.mk.injEq] at hsl
        obtain ⟨hl, hr⟩ := hsl
        obtain ⟨oo, hoo⟩ := ih o.tail (buf ++ [c]) p.1 r (by rw [h, ← hr])
        refine ⟨oo, ?_⟩
        simp only [readHeaderLoop, if_neg hc]
        rw [hoo, ← hl]
        simp

theorem chunkLen_pos (o : List Nat) (req : Nat) (s : List Nat) : 1 ≤ chunkLen o req s := by
  unfold chunkLen
  omega

theorem chunkLen_le (o : List Nat) (req : Nat) (s : List Nat) (hreq : 1 ≤ req)
    (hs : 1 ≤ s.length) : chunkLen o req s ≤ min req s.length := by
  unfold chunkLen
  omega

theorem readDataLoop_done (fuel : Nat) (o s : List Nat) (need : Nat) (acc : List Nat)
    (h : need ≤ acc.length) : readDataLoop fuel o s need acc = .ok (acc, s, o) := by
  cases fuel with
  | zero => simp only [readDataLoop]; rw [if_neg (by omega)]
  | succ f => simp only [readDataLoop]; rw [if_neg (by omega)]

theorem readDataLoop_ok (fuel : Nat) : ∀ (o s : List Nat) (need : Nat) (acc : List Nat),
    s.length ≤ fuel → acc.length < need → need - acc.length ≤ s.length →
    ∃ oo, readDataLoop fuel o s need acc =
      .ok (acc ++ s.take (need - acc.length), s.drop (need - acc.length), oo) := by
  induction fuel with
  | zero => intro o s need acc hs hlt hle; exact (by omega : False).elim
  | succ f ih =>
    intro o s need acc hs hlt hle
    simp only [readDataLoop]
    have hk1 : 1 ≤ chunkLen o (need - acc.length) s := chunkLen_pos _ _ _
    have hkle : chunkLen o (need - acc.length) s ≤ min (need - acc.length) s.length :=
      chunkLen_le _ _ _ (by omega) (by omega)
    set k := chunkLen o (need - acc.length) s with hkdef
    clear_value k
    have htk : (s.take k).length = k := by simp [List.length_take]; omega
    rw [if_pos hlt, if_neg (by omega)]
    by_cases h2 : (acc ++ s.take k).length < need
    · obtain ⟨oo, hoo⟩ := ih o.tail (s.drop k) need (acc ++ s.take k)
        (by simp [List.length_drop]; omega) h2
        (by simp [List.length_append, List.length_drop, htk]; omega)
      refine ⟨oo, ?_⟩
      rw [hoo]
      have hsplit : s.take (need - acc.length) =
          s.take k ++ (s.drop k).take (need - (acc ++ s.take k).length) := by
        rw [show need - (acc ++ s.take k).length = need - acc.length - k by
          simp only [List.length_append, htk]; omega]
        rw [← List.take_add]
        congr 1
        omega
      have hdrop : (s.drop k).drop (need - (acc ++ s.take k).length) =
          s.drop (need - acc.length) := by
        rw [show need - (acc ++ s.take k).length = need - acc.length - k by
          simp only [List.length_append, htk]; omega]
        rw [List.drop_drop]
        congr 1
        omega
      rw [hsplit, hdrop, List.append_assoc]
    · refine ⟨o.tail, ?_⟩
      rw [readDataLoop_done _ _ _ _ _ (by omega)]
      have hkeq : k = need - acc.length := by
        simp only [List.length_append, htk] at h2
        omega
      rw [hkeq]

theorem readDataLoop_err (fuel : Nat) : ∀ (o s : List Nat) (need : Nat) (acc : List Nat),
    s.length ≤ fuel → s.length < need - acc.length →
    readDataLoop fuel o s need acc = .error .connClosed := by
  induction fuel with
  | zero =>
    intro o s need acc hs hlt
    simp only [readDataLoop]
    rw [if_pos (by omega)]
  | succ f ih =>
    intro o s need acc hs hlt
    simp only [readDataLoop]
    rw [if_pos (by omega)]
    by_cases hnil : s.length = 0
    · rw [if_pos (by simp only [List.length_take]; omega)]
    · have hk1 : 1 ≤ chunkLen o (need - acc.length) s := chunkLen_pos _ _ _
      have hkle : chunkLen o (need - acc.length) s ≤ min (need - acc.length) s.length :=
        chunkLen_le _ _ _ (by omega) (by omega)
      set k := chunkLen o (need - acc.length) s with hkdef
      clear_value k
      have htk : (s.take k).length = k := by simp [List.length_take]; omega
      rw [if_neg (by omega)]
      exact ih o.tail (s.drop k) need (acc ++ s.take k)
        (by simp [List.length_drop]; omega)
        (by simp [List.length_drop, List.length_append, htk]; omega)

theorem readPayloadLoop_ok (fuel : Nat) : ∀ (o s : List Nat) (remaining : Nat)
    (parts : List (List Nat)), s.length ≤ fuel → remaining ≤ s.length →
    ∃ oo, readPayloadLoop fuel o s remaining parts =
      .ok (parts.flatten ++ s.take remaining, s.drop remaining, oo) := by
  induction fuel with
  | zero =>
    intro o s remaining parts hs hle
    refine ⟨o, ?_⟩
    simp only [readPayloadLoop]
    rw [if_neg (by omega)]
    have : remaining = 0 := by omega
    subst this
    simp
  | succ f ih =>
    intro o s remaining parts hs hle
    by_cases hr0 : remaining = 0
    · subst hr0
      refine ⟨o, ?_⟩
      simp only [readPayloadLoop]
      rw [if_neg (by omega)]
      simp
    · simp only [readPayloadLoop]
      have hk1 : 1 ≤ chunkLen o (min remaining 65536) s := chunkLen_pos _ _ _
      have hkle : chunkLen o (min remaining 65536) s ≤ min (min remaining 65536) s.length :=
        chunkLen_le _ _ _ (by omega) (by omega)
      set k := chunkLen o (min remaining 65536) s with hkdef
      clear_value k
      have htk : (s.take k).length = k := by simp [List.length_take]; omega
      rw [if_pos (by omega), if_neg (by omega)]
      obtain ⟨oo, hoo⟩ := ih o.tail (s.drop k) (remaining - (s.take k).length)
        (parts ++ [s.take k]) (by simp [List.length_drop]; omega)
        (by simp [List.length_drop, htk]; omega)
      refine ⟨oo, ?_⟩
      rw [hoo]
      have hsplit : s.take remaining = s.take k ++ (s.drop k).take (remaining - (s.take k).length) := by
        rw [htk, ← List.take_add]
        congr 1
        omega
      have hdrop : (s.drop k).drop (remaining - (s.take k).length) = s.drop remaining := by
        rw [htk, List.drop_drop]
        congr 1
        omega
      rw [hsplit, hdrop]
      simp [List.append_assoc]

theorem readPayloadLoop_err (fuel : Nat) : ∀ (o s : List Nat) (remaining : Nat)
    (parts : List (List Nat)), s.length ≤ fuel → s.length < remaining →
    readPayloadLoop fuel o s remaining parts = .error .connClosed := by
  induction fuel with
  | zero =>
    intro o s remaining parts hs hlt
    simp only [readPayloadLoop]
    rw [if_pos (by omega)]
  | succ f ih =>
    intro o s remaining parts hs hlt
    simp only [readPayloadLoop]
    rw [if_pos (by omega)]
    by_cases hnil : s.length = 0
    · rw [if_pos (by simp only [List.length_take]; omega)]
    · have hk1 : 1 ≤ chunkLen o (min remaining 65536) s := chunkLen_pos _ _ _
      have hkle : chunkLen o (min remaining 65536) s ≤ min (min remaining 65536) s.length :=
        chunkLen_le _ _ _ (by omega) (by omega)
      set k := chunkLen o (min remaining 65536) s with hkdef
      clear_value k
      have htk : (s.take k).length = k := by simp [List.length_take]; omega
      rw [if_neg (by omega)]
      exact ih o.tail (s.drop k) (remaining - (s.take k).length) (parts ++ [s.take k])
        (by simp [List.length_drop]; omega)
        (by simp [List.length_drop, htk]; omega)

theorem recvPayloadLen_eq (o s : List Nat) (t d : Json) (e : Except RErr Int) :
    (recvPayloadLen o s t d e).map (fun r => (r.1, r.2.1)) = recvSpecPayloadLen s t d e := by
  cases e with
  | error err => rfl
  | ok pl =>
    simp only [recvPayloadLen, recvSpecPayloadLen]
    by_cases hpl : 0 < pl
    · rw [if_pos hpl, if_pos hpl]
      by_cases hs : s.length < pl.toNat
      · rw [readPayloadLoop_err s.length o s pl.toNat [] (le_refl _) hs, if_pos hs]
        rfl
      · obtain ⟨oo, hoo⟩ := readPayloadLoop_ok s.length o s pl.toNat [] (le_refl _) (by omega)
        rw [hoo, if_neg hs]
        rfl
    · rw [if_neg hpl, if_neg hpl]
      rfl

theorem recvPayloadPhase_eq (o s : List Nat) (t d hdr : Json) :
    (recvPayloadPhase o s t d hdr).map (fun r => (r.1, r.2.1)) = recvSpecPayload s t d hdr :=
  recvPayloadLen_eq o s t d _

theorem recvAfterMerge_eq (hdr t : Json) (o2 s2 : List Nat) (e : Except RErr Json) :
    (recvAfterMerge hdr t o2 s2 e).map (fun r => (r.1, r.2.1)) =
      recvSpecAfterMerge hdr t s2 e := by
  cases e with
  | error err => rfl
  | ok d1 => exact recvPayloadPhase_eq o2 s2 t d1 hdr

theorem recvExtraParse_eq (hdr t d0 : Json) (o2 s2 : List Nat) (x : Option Json) :
    (recvExtraParse hdr t d0 o2 s2 x).map (fun r => (r.1, r.2.1)) =
      recvSpecExtraParse hdr t d0 s2 x := by
  cases x with
  | none => rfl
  | some ex => exact recvAfterMerge_eq hdr t o2 s2 (updateData d0 ex)

theorem recvDataLen_eq (o1 s1 : List Nat) (hdr t d0 : Json) (e : Except RErr Int) :
    (recvDataLen o1 s1 hdr t d0 e).map (fun r => (r.1, r.2.1)) =
      recvSpecDataLen s1 hdr t d0 e := by
  cases e with
  | error err => rfl
  | ok dl =>
    simp only [recvDataLen, recvSpecDataLen]
    by_cases hdl : 0 < dl
    · rw [if_pos hdl, if_pos hdl]
      by_cases hs : s1.length < dl.toNat
      · rw [readDataLoop_err s1.length o1 s1 dl.toNat [] (le_refl _) (by simp; omega)]
        rw [if_pos hs]
        rfl
      · obtain ⟨oo, hoo⟩ := readDataLoop_ok s1.length o1 s1 dl.toNat []
          (le_refl _) (by simp; omega) (by simp; omega)
        rw [hoo, if_neg hs]
        simp only [recvAfterDataRead, List.nil_append, Nat.sub_zero]
        exact recvExtraParse_eq hdr t d0 oo (s1.drop dl.toNat) (loads (s1.take dl.toNat))
    · rw [if_neg hdl, if_neg hdl]
      exact recvPayloadPhase_eq o1 s1 t d0 hdr

theorem recvAfterType_eq (hdr : Json) (o1 s1 : List Nat) (e : Except RErr Json) :
    (recvAfterType hdr o1 s1 e).map (fun r => (r.1, r.2.1)) = recvSpecAfterType hdr s1 e := by
  cases e with
  | error err => rfl
  | ok t => exact recvDataLen_eq o1 s1 hdr t _ _

theorem recvHeaderParse_eq (o1 s1 : List Nat) (x : Option Json) :
    (recvHeaderParse o1 s1 x).map (fun r => (r.1, r.2.1)) = recvSpecHeaderParse s1 x := by
  cases x with
  | none => rfl
  | some hdr => exact recvAfterType_eq hdr o1 s1 (indexField hdr typeKey)

theorem recvResult_eq_recvSpec (o s : List Nat) : recvResult o s = recvSpec s := by
  unfold recvResult recv_event recvSpec
  cases h : splitLine s with
  | none =>
    rw [readHeaderLoop_none s o [] h]
    rfl
  | some p =>
    obtain ⟨oo, hoo⟩ := readHeaderLoop_some s o [] p.1 p.2 (by rw [h])
    rw [hoo]
    simp only [recvHeaderDone, List.nil_append]
    exact recvHeaderParse_eq oo p.2 (loads p.1)


theorem splitLine_append (l r : List Nat) (h : ∀ b ∈ l, b ≠ 10) :
    splitLine (l ++ 10 :: r) = some (l, r) := by
  induction l with
  | nil => simp [splitLine]
  | cons c cs ih =>
    have hc : c ≠ 10 := h c (by simp)
    simp only [List.cons_append, splitLine, if_neg hc, List.append_eq]
    rw [ih (fun b hb => h b (by simp [hb]))]
    rfl

theorem recvSpec_send_event (T : List Nat) (fs : List (List Nat × Json)) (P rest : List Nat)
    (hT : strWFb T = true) (hfs : wfbFields fs = true) :
    recvSpec (send_event T (Json.obj fs) P ++ rest) =
      .ok ((Json.str T, Json.obj fs, P), rest) := by
  have hTD : typeKey ≠ dataKey := by decide
  have hTP : typeKey ≠ payloadLengthKey := by decide
  have hDP : dataKey ≠ payloadLengthKey := by decide
  have hDT : dataKey ≠ typeKey := by decide
  have hPT : payloadLengthKey ≠ typeKey := by decide
  have hPD : payloadLengthKey ≠ dataKey := by decide
  by_cases hf0 : fs = []
  · subst hf0
    by_cases hP : P = []
    · subst hP
      have hse : send_event T (Json.obj []) [] ++ rest =
          dumps (Json.obj [(typeKey, Json.str T)]) ++ 10 :: rest := by
        simp [send_event, jsonTruthy, insertKey]
      have hw : wfb (Json.obj [(typeKey, Json.str T)]) = true := by
        simp only [wfb, wfbFields, Bool.and_eq_true]
        and_intros <;> first | exact hT | decide | simp [hDT, hPT, hPD]
      rw [hse]
      have hstep : recvSpec (dumps (Json.obj [(typeKey, Json.str T)]) ++ 10 :: rest) =
          recvSpecHeaderParse rest (loads (dumps (Json.obj [(typeKey, Json.str T)]))) := by
        unfold recvSpec
        rw [splitLine_append _ _ (fun b hb => dumps_no_nl _ b hb)]
      rw [hstep, loads_dumps _ hw]
      rfl
    · have hse : send_event T (Json.obj []) P ++ rest =
          dumps (Json.obj [(typeKey, Json.str T),
            (payloadLengthKey, Json.num (P.length : Int))]) ++ 10 :: (P ++ rest) := by
        simp [send_event, jsonTruthy, insertKey, hP, hTP]
      have hw : wfb (Json.obj [(typeKey, Json.str T),
          (payloadLengthKey, Json.num (P.length : Int))]) = true := by
        simp only [wfb, wfbFields, Bool.and_eq_true]
        and_intros <;> first | exact hT | decide | simp [hDT, hPT, hPD]
      rw [hse]
      have hstep : recvSpec (dumps (Json.obj [(typeKey, Json.str T),
            (payloadLengthKey, Json.num (P.length : Int))]) ++ 10 :: (P ++ rest)) =
          recvSpecHeaderParse (P ++ rest) (loads (dumps (Json.obj [(typeKey, Json.str T),
            (payloadLengthKey, Json.num (P.length : Int))]))) := by
        unfold recvSpec
        rw [splitLine_append _ _ (fun b hb => dumps_no_nl _ b hb)]
      rw [hstep, loads_dumps _ hw]
      rw [show recvSpecHeaderParse (P ++ rest) (some (Json.obj [(typeKey, Json.str T),
            (payloadLengthKey, Json.num (P.length : Int))])) =
          recvSpecPayloadLen (P ++ rest) (Json.str T) (Json.obj [])
            (.ok (P.length : Int)) from rfl]
      simp only [recvSpecPayloadLen]
      rw [if_pos (by exact_mod_cast Nat.pos_of_ne_zero (fun hx => hP (List.length_eq_zero.mp hx)))]
      rw [if_neg (by simp [List.length_append])]
      simp [List.take_left, List.drop_left]
  · have hf1 : fs.length ≠ 0 := fun hx => hf0 (List.length_eq_zero.mp hx)
    by_cases hP : P = []
    · subst hP
      have hse : send_event T (Json.obj fs) [] ++ rest =
          dumps (Json.obj [(typeKey, Json.str T), (dataKey, Json.obj fs)]) ++ 10 :: rest := by
        simp [send_event, jsonTruthy, insertKey, hf1, hTD]
      have hw : wfb (Json.obj [(typeKey, Json.str T), (dataKey, Json.obj fs)]) = true := by
        simp only [wfb, wfbFields, Bool.and_eq_true]
        and_intros <;> first | exact hT | exact hfs | decide | simp [hDT, hPT, hPD]
      rw [hse]
      have hstep : recvSpec (dumps (Json.obj [(typeKey, Json.str T),
            (dataKey, Json.obj fs)]) ++ 10 :: rest) =
          recvSpecHeaderParse rest (loads (dumps (Json.obj [(typeKey, Json.str T),
            (dataKey, Json.obj fs)]))) := by
        unfold recvSpec
        rw [splitLine_append _ _ (fun b hb => dumps_no_nl _ b hb)]
      rw [hstep, loads_dumps _ hw]
      rfl
    · have hse : send_event T (Json.obj fs) P ++ rest =
          dumps (Json.obj [(typeKey, Json.str T), (dataKey, Json.obj fs),
            (payloadLengthKey, Json.num (P.length : Int))]) ++ 10 :: (P ++ rest) := by
        simp [send_event, jsonTruthy, insertKey, hf1, hP, hTD, hTP, hDP]
      have hw : wfb (Json.obj [(typeKey, Json.str T), (dataKey, Json.obj fs),
          (payloadLengthKey, Json.num (P.length : Int))]) = true := by
        simp only [wfb, wfbFields, Bool.and_eq_true]
        and_intros <;> first | exact hT | exact hfs | decide | simp [hDT, hPT, hPD]
      rw [hse]
      have hstep : recvSpec (dumps (Json.obj [(typeKey, Json.str T), (dataKey, Json.obj fs),
            (payloadLengthKey, Json.num (P.length : Int))]) ++ 10 :: (P ++ rest)) =
          recvSpecHeaderParse (P ++ rest) (loads (dumps (Json.obj [(typeKey, Json.str T),
            (dataKey, Json.obj fs), (payloadLengthKey, Json.num (P.length : Int))]))) := by
        unfold recvSpec
        rw [splitLine_append _ _ (fun b hb => dumps_no_nl _ b hb)]
      rw [hstep, loads_dumps _ hw]
      rw [show recvSpecHeaderParse (P ++ rest) (some (Json.obj [(typeKey, Json.str T),
            (dataKey, Json.obj fs), (payloadLengthKey, Json.num (P.length : Int))])) =
          recvSpecPayloadLen (P ++ rest) (Json.str T) (Json.obj fs)
            (.ok (P.length : Int)) from rfl]
      simp only [recvSpecPayloadLen]
      rw [if_pos (by exact_mod_cast Nat.pos_of_ne_zero (fun hx => hP (List.length_eq_zero.mp hx)))]
      rw [if_neg (by simp [List.length_append])]
      simp [List.take_left, List.drop_left]

theorem recv_event_oracle_agree (o1 o2 s : List Nat) :
    (∃ e, recv_event o1 s = .error e ∧ recv_event o2 s = .error e) ∨
    (∃ ev s1 r1 r2, recv_event o1 s = .ok (ev, s1, r1) ∧
      recv_event o2 s = .ok (ev, s1, r2)) := by
  have h1 := recvResult_eq_recvSpec o1 s
  have h2 := recvResult_eq_recvSpec o2 s
  rw [← h2] at h1
  unfold recvResult at h1
  cases e1 : recv_event o1 s with
  | error a =>
    cases e2 : recv_event o2 s with
    | error b =>
      rw [e1, e2] at h1
      simp only [Except.map, Except.error.injEq] at h1
      subst h1
      exact Or.inl ⟨a, rfl, rfl⟩
    | ok r2 =>
      rw [e1, e2] at h1
      simp [Except.map] at h1
  | ok r1 =>
    cases e2 : recv_event o2 s with
    | error b =>
      rw [e1, e2] at h1
      simp [Except.map] at h1
    | ok r2 =>
      rw [e1, e2] at h1
      simp only [Except.map, Except.ok.injEq, Prod.mk.injEq] at h1
      obtain ⟨hev, hs⟩ := h1
      exact Or.inr ⟨r1.1, r1.2.1, r1.2.2, r2.2.2, rfl, by rw [hev, hs]⟩

/-- C1: decoding the exact bytes `send_event` emits for a type `T`, a data
mapping `D`, and a payload `P` returns the type `T`, a data mapping equal
to `D` (an empty `D` is decoded as the empty mapping), and exactly the
payload `P`, for every read-fragmentation oracle. -/
theorem C1_encode_decode_roundtrip (o T P : List Nat) (fs : List (List Nat × Json))
    (hT : strWFb T = true) (hfs : wfbFields fs = true) :
    recvResult o (send_event T (Json.obj fs) P) =
      .ok ((Json.str T, Json.obj fs, P), []) := by
  rw [recvResult_eq_recvSpec]
  simpa using recvSpec_send_event T fs P [] hT hfs

theorem C1_witness :
    strWFb [97] = true ∧ wfbFields [([98], Json.num 5)] = true ∧
    recvResult [] (send_event [97] (Json.obj [([98], Json.num 5)]) [1, 2, 3]) =
      .ok ((Json.str [97], Json.obj [([98], Json.num 5)], [1, 2, 3]), []) :=
  ⟨by decide, by decide,
    C1_encode_decode_roundtrip [] [97] [1, 2, 3] [([98], Json.num 5)] (by decide) (by decide)⟩

/-- C4: if the stream ends before the newline-terminated header, or with
fewer bytes than a declared positive `data_length`, or with fewer bytes
than a declared positive `payload_length` (whether or not a data block
preceded it), `recv_event` fails with the closed-connection error instead
of returning a truncated event. -/
theorem C4_premature_termination (o s : List Nat)
    (h : splitLine s = none ∨
      (∃ l r hdr t dl, splitLine s = some (l, r) ∧ loads l = some hdr ∧
        indexField hdr typeKey = .ok t ∧
        jsonToLen (getD hdr dataLengthKey (Json.num 0)) = .ok dl ∧
        0 < dl ∧ r.length < dl.toNat) ∨
      (∃ l r hdr t dl pl, splitLine s = some (l, r) ∧ loads l = some hdr ∧
        indexField hdr typeKey = .ok t ∧
        jsonToLen (getD hdr dataLengthKey (Json.num 0)) = .ok dl ∧ ¬0 < dl ∧
        jsonToLen (getD hdr payloadLengthKey (Json.num 0)) = .ok pl ∧
        0 < pl ∧ r.length < pl.toNat) ∨
      (∃ l r hdr t dl ex d1 pl, splitLine s = some (l, r) ∧ loads l = some hdr ∧
        indexField hdr typeKey = .ok t ∧
        jsonToLen (getD hdr dataLengthKey (Json.num 0)) = .ok dl ∧ 0 < dl ∧
        ¬r.length < dl.toNat ∧ loads (r.take dl.toNat) = some ex ∧
        updateData (getD hdr dataKey (Json.obj [])) ex = .ok d1 ∧
        jsonToLen (getD hdr payloadLengthKey (Json.num 0)) = .ok pl ∧
        0 < pl ∧ (r.drop dl.toNat).length < pl.toNat)) :
    recvResult o s = .error .connClosed := by
  rw [recvResult_eq_recvSpec]
  rcases h with hsl |
    ⟨l, r, hdr, t, dl, hsl, hld, ht, hdl, hdl0, hshort⟩ |
    ⟨l, r, hdr, t, dl, pl, hsl, hld, ht, hdl, hdl0, hpl, hpl0, hshort⟩ |
    ⟨l, r, hdr, t, dl, ex, d1, pl, hsl, hld, ht, hdl, hdl0, hlong, hex, hupd, hpl, hpl0, hshort⟩
  · unfold recvSpec
    rw [hsl]
  · unfold recvSpec
    rw [hsl]
    simp only
    rw [hld]
    simp only [recvSpecHeaderParse]
    rw [ht]
    simp only [recvSpecAfterType]
    rw [hdl]
    simp only [recvSpecDataLen]
    rw [if_pos hdl0, if_pos hshort]
  · unfold recvSpec
    rw [hsl]
    simp only
    rw [hld]
    simp only [recvSpecHeaderParse]
    rw [ht]
    simp only [recvSpecAfterType]
    rw [hdl]
    simp only [recvSpecDataLen]
    rw [if_neg hdl0]
    unfold recvSpecPayload
    rw [hpl]
    simp only [recvSpecPayloadLen]
    rw [if_pos hpl0, if_pos hshort]
  · unfold recvSpec
    rw [hsl]
    simp only
    rw [hld]
    simp only [recvSpecHeaderParse]
    rw [ht]
    simp only [recvSpecAfterType]
    rw [hdl]
    simp only [recvSpecDataLen]
    rw [if_pos hdl0, if_neg hlong, hex]
    simp only [recvSpecExtraParse]
    rw [hupd]
    simp only [recvSpecAfterMerge]
    unfold recvSpecPayload
    rw [hpl]
    simp only [recvSpecPayloadLen]
    rw [if_pos hpl0, if_pos hshort]

theorem C4_witness :
    splitLine ([] : List Nat) = none ∧
    recvResult [1] (dumps (Json.obj [(typeKey, Json.str [97]),
        (payloadLengthKey, Json.num 5)]) ++ 10 :: [1, 2]) = .error .connClosed :=
  ⟨rfl, C4_premature_termination [1] _ (Or.inr (Or.inr (Or.inl
    ⟨dumps (Json.obj [(typeKey, Json.str [97]), (payloadLengthKey, Json.num 5)]), [1, 2],
      Json.obj [(typeKey, Json.str [97]), (payloadLengthKey, Json.num 5)],
      Json.str [97], 0, 5, by rfl, by rfl, by rfl, by rfl, by decide, by rfl, by decide,
      by decide⟩)))⟩

/-- C5: a complete frame with a positive declared `payload_length` is
consumed exactly: whatever bytes follow it are left as the remaining
stream, and a second frame appended immediately after it decodes
correctly. -/
theorem C5_length_prefix_exactness (o o2 T1 T2 P1 P2 : List Nat)
    (fs1 fs2 : List (List Nat × Json))
    (hT1 : strWFb T1 = true) (hfs1 : wfbFields fs1 = true) (hP1 : P1 ≠ [])
    (hT2 : strWFb T2 = true) (hfs2 : wfbFields fs2 = true) :
    (∀ rest, recvResult o (send_event T1 (Json.obj fs1) P1 ++ rest) =
      .ok ((Json.str T1, Json.obj fs1, P1), rest)) ∧
    recvResult o2 (send_event T1 (Json.obj fs1) P1 ++ send_event T2 (Json.obj fs2) P2) =
      .ok ((Json.str T1, Json.obj fs1, P1), send_event T2 (Json.obj fs2) P2) ∧
    recvResult o2 (send_event T2 (Json.obj fs2) P2) =
      .ok ((Json.str T2, Json.obj fs2, P2), []) := by
  refine ⟨fun rest => ?_, ?_, ?_⟩
  · rw [recvResult_eq_recvSpec]
    exact recvSpec_send_event T1 fs1 P1 rest hT1 hfs1
  · rw [recvResult_eq_recvSpec]
    exact recvSpec_send_event T1 fs1 P1 _ hT1 hfs1
  · rw [recvResult_eq_recvSpec]
    simpa using recvSpec_send_event T2 fs2 P2 [] hT2 hfs2

theorem C5_witness :
    ([5] : List Nat) ≠ [] ∧
    recvResult [2] (send_event [97] (Json.obj []) [5] ++ send_event [98] (Json.obj []) []) =
      .ok ((Json.str [97], Json.obj [], [5]), send_event [98] (Json.obj []) []) :=
  ⟨by decide, (C5_length_prefix_exactness [2] [2] [97] [98] [5] [] [] []
    (by decide) (by decide) (by decide) (by decide) (by decide)).2.1⟩

/-- C6: the decoded event sequence depends only on the total byte stream,
not on how reads fragment it: any two fragmentation oracles yield the
same events and the same terminal error, if any. -/
theorem C6_fragmentation_invariance (n : Nat) : ∀ (o1 o2 s : List Nat),
    recvStream n o1 s = recvStream n o2 s := by
  induction n with
  | zero => intro o1 o2 s; rfl
  | succ m ih =>
    intro o1 o2 s
    rcases recv_event_oracle_agree o1 o2 s with ⟨e, h1, h2⟩ | ⟨ev, s1, r1, r2, h1, h2⟩
    · simp [recvStream, h1, h2]
    · simp only [recvStream, h1, h2]
      rw [ih r1 r2 s1]

/-- C9: when the declared `data_length` and `payload_length` are not
positive (absent fields default to 0), no block read happens: the event is
returned with the header data unchanged and an empty payload, and the
stream is left right after the header line. -/
theorem C9_nonpositive_lengths (o s l r : List Nat) (hdr t : Json) (dl pl : Int)
    (hsl : splitLine s = some (l, r)) (hld : loads l = some hdr)
    (ht : indexField hdr typeKey = .ok t)
    (hdl : jsonToLen (getD hdr dataLengthKey (Json.num 0)) = .ok dl) (hdl0 : ¬0 < dl)
    (hpl : jsonToLen (getD hdr payloadLengthKey (Json.num 0)) = .ok pl) (hpl0 : ¬0 < pl) :
    recvResult o s = .ok ((t, getD hdr dataKey (Json.obj []), []), r) := by
  rw [recvResult_eq_recvSpec]
  unfold recvSpec
  rw [hsl]
  simp only
  rw [hld]
  simp only [recvSpecHeaderParse]
  rw [ht]
  simp only [recvSpecAfterType]
  rw [hdl]
  simp only [recvSpecDataLen]
  rw [if_neg hdl0]
  unfold recvSpecPayload
  rw [hpl]
  simp only [recvSpecPayloadLen]
  rw [if_neg hpl0]

theorem C9_witness :
    ¬(0 : Int) < -3 ∧
    recvResult [] (dumps (Json.obj [(typeKey, Json.str [97]), (dataLengthKey, Json.num (-3)),
        (payloadLengthKey, Json.num 0)]) ++ 10 :: [7, 8]) =
      .ok ((Json.str [97], Json.obj [], []), [7, 8]) :=
  ⟨by decide, C9_nonpositive_lengths [] _
    (dumps (Json.obj [(typeKey, Json.str [97]), (dataLengthKey, Json.num (-3)),
      (payloadLengthKey, Json.num 0)])) [7, 8]
    (Json.obj [(typeKey, Json.str [97]), (dataLengthKey, Json.num (-3)),
      (payloadLengthKey, Json.num 0)]) (Json.str [97]) (-3) 0
    (by rfl) (by rfl) (by rfl) (by rfl) (by decide) (by rfl) (by decide)⟩

/-- C7: an `audio-start` event adopts the default for each format field
missing from its data — an empty data mapping yields rate 22050, width 2,
channels 1. -/
theorem C7_audio_start_defaults (st : PbState) (pipe : List Bool) (d : Json)
    (payload : List Nat) :
    (jlookup d rateKey = none →
      ((step st pipe (Json.str audioStartKey, d, payload)).1).rate = Json.num 22050) ∧
    (jlookup d widthKey = none →
      ((step st pipe (Json.str audioStartKey, d, payload)).1).width = Json.num 2) ∧
    (jlookup d channelsKey = none →
      ((step st pipe (Json.str audioStartKey, d, payload)).1).channels = Json.num 1) := by
  have hgd : ∀ (key : List Nat) (dflt : Json), jlookup d key = none →
      getD d key dflt = dflt := by
    intro key dflt h
    cases d <;> simp_all [jlookup, getD]
  refine ⟨fun h => ?_, fun h => ?_, fun h => ?_⟩ <;>
    · simp only [step, jsonEqStr]
      rw [if_pos (by decide)]
      by_cases hs : st.streaming <;> simp [hs, hgd _ _ h]

theorem C7_witness :
    jlookup (Json.obj []) rateKey = none ∧
    ((step (initState true soxName) [] (Json.str audioStartKey, Json.obj [], [])).1).rate =
      Json.num 22050 ∧
    ((step (initState true soxName) [] (Json.str audioStartKey, Json.obj [], [])).1).width =
      Json.num 2 ∧
    ((step (initState true soxName) [] (Json.str audioStartKey, Json.obj [], [])).1).channels =
      Json.num 1 :=
  ⟨rfl,
    (C7_audio_start_defaults (initState true soxName) [] (Json.obj []) []).1 rfl,
    (C7_audio_start_defaults (initState true soxName) [] (Json.obj []) []).2.1 rfl,
    (C7_audio_start_defaults (initState true soxName) [] (Json.obj []) []).2.2 rfl⟩

/-- C8: the client sends one `synthesize` event whose data always carries
the text under "text"; a "voice" sub-object appears exactly when a voice
or speaker selector is truthy, carrying "name" exactly when the voice is
and "speaker" exactly when the speaker is — in particular, with voice
"en_US-amy" and speaker "0" the voice sub-object holds both, and with
neither selector the data has no "voice" key. -/
theorem C8_synthesize_request (t : List Nat) (v sp : Option (List Nat)) :
    synthRequest t v sp = send_event synthesizeKey (buildSynthData t v sp) [] ∧
    jlookup (buildSynthData t v sp) textKey = some (Json.str t) ∧
    (optTruthy v = false → optTruthy sp = false →
      buildSynthData t v sp = Json.obj [(textKey, Json.str t)]) ∧
    (∀ vs ss, v = some vs → vs ≠ [] → sp = some ss → ss ≠ [] →
      buildSynthData t v sp = Json.obj [(textKey, Json.str t),
        (voiceKey, Json.obj [(nameKey, Json.str vs), (speakerKey, Json.str ss)])]) ∧
    (optTruthy v = true → optTruthy sp = false →
      buildSynthData t v sp = Json.obj [(textKey, Json.str t),
        (voiceKey, Json.obj [(nameKey, Json.str (v.getD []))])]) ∧
    (optTruthy v = false → optTruthy sp = true →
      buildSynthData t v sp = Json.obj [(textKey, Json.str t),
        (voiceKey, Json.obj [(speakerKey, Json.str (sp.getD []))])]) := by
  have hTV : ¬(textKey = voiceKey) := by decide
  have hNS : ¬(nameKey = speakerKey) := by decide
  refine ⟨rfl, ?_, fun hv hsp => ?_, fun vs ss hv hvs hsp hss => ?_,
    fun hv hsp => ?_, fun hv hsp => ?_⟩
  · by_cases hv : optTruthy v = true <;> by_cases hsp : optTruthy sp = true <;>
      simp [buildSynthData, insertKey, jlookup, lookupField, hv, hsp, hTV, hNS]
  · simp [buildSynthData, insertKey, hv, hsp]
  · subst hv
    subst hsp
    have hv1 : optTruthy (some vs) = true := by simp [optTruthy, hvs]
    have hs1 : optTruthy (some ss) = true := by simp [optTruthy, hss]
    simp [buildSynthData, insertKey, hv1, hs1, hTV, hNS]
  · simp [buildSynthData, insertKey, hv, hsp, hTV, hNS]
  · simp [buildSynthData, insertKey, hv, hsp, hTV, hNS]

theorem C8_witness :
    (some [101, 110, 95, 85, 83, 45, 97, 109, 121] : Option (List Nat)) =
      some [101, 110, 95, 85, 83, 45, 97, 109, 121] ∧
    buildSynthData [104, 105] (some [101, 110, 95, 85, 83, 45, 97, 109, 121]) (some [48]) =
      Json.obj [(textKey, Json.str [104, 105]),
        (voiceKey, Json.obj [(nameKey, Json.str [101, 110, 95, 85, 83, 45, 97, 109, 121]),
          (speakerKey, Json.str [48])])] :=
  ⟨rfl, (C8_synthesize_request [104, 105] (some [101, 110, 95, 85, 83, 45, 97, 109, 121])
    (some [48])).2.2.2.1 [101, 110, 95, 85, 83, 45, 97, 109, 121] [48]
    rfl (by decide) rfl (by decide)⟩

/-- Refutes C2 as stated: with a streaming player provisioned, a failed
sink write during `audio-chunk` makes the loop `break` at once, so the
following `audio-stop` event is left unprocessed (it stays in the leftover
event list and the process stdin is never closed), even though the
connection is still closed by the `finally` block. -/
theorem C2_counterexample :
    (session (initState true soxName) [false]
        [(Json.str audioStartKey, Json.obj [], []),
         (Json.str audioChunkKey, Json.obj [], [0]),
         (Json.str audioStopKey, Json.obj [], [])]).1.2 =
      [(Json.str audioStopKey, Json.obj [], [])] ∧
    ((session (initState true soxName) [false]
        [(Json.str audioStartKey, Json.obj [], []),
         (Json.str audioChunkKey, Json.obj [], [0]),
         (Json.str audioStopKey, Json.obj [], [])]).1.1).stdinClosed = false ∧
    (session (initState true soxName) [false]
        [(Json.str audioStartKey, Json.obj [], []),
         (Json.str audioChunkKey, Json.obj [], [0]),
         (Json.str audioStopKey, Json.obj [], [])]).2 = true :=
  ⟨rfl, rfl, rfl⟩

/-- C2 (corrected): a sink write failure during `audio-chunk` processing
exits the receive loop immediately — every later event, including a
subsequent `audio-stop`, is left unprocessed and nothing further is
written — while the connection is still closed by the `finally` block. -/
theorem C2_sink_failure_breaks_loop (st : PbState) (pipe : List Bool) (d : Json)
    (payload : List Nat) (evs : List (Json × Json × List Nat))
    (hs : st.streaming = true) (hp : st.procActive = true) (hpl : payload ≠ []) :
    session st (false :: pipe) ((Json.str audioChunkKey, d, payload) :: evs) =
      (({ st with
            total_bytes := st.total_bytes + payload.length,
            chunk_count := st.chunk_count + 1 }, evs), true) := by
  have hstep : step st (false :: pipe) (Json.str audioChunkKey, d, payload) =
      ({ st with
          total_bytes := st.total_bytes + payload.length,
          chunk_count := st.chunk_count + 1 }, pipe, true) := by
    simp only [step, jsonEqStr]
    rw [if_neg (by decide), if_pos (by decide), if_neg hpl]
    simp [hs, hp]
  unfold session
  simp only [runLoop]
  rw [hstep]
  rfl

theorem C2_witness :
    ({ initState true soxName with procActive := true } : PbState).procActive = true ∧
    session { initState true soxName with procActive := true } [false]
        [(Json.str audioChunkKey, Json.obj [], [0]),
         (Json.str audioStopKey, Json.obj [], [])] =
      (({ initState true soxName with
            procActive := true, total_bytes := 1, chunk_count := 1 },
        [(Json.str audioStopKey, Json.obj [], [])]), true) :=
  ⟨rfl, C2_sink_failure_breaks_loop { initState true soxName with procActive := true }
    [] (Json.obj []) [0] [(Json.str audioStopKey, Json.obj [], [])]
    rfl rfl (by decide)⟩

/-- Refutes C3 as stated: a second `audio-start` in the same response is
not ignored — it overwrites the recorded format with its own values and,
with a streaming player, provisions a fresh sink process (the provision
counter reaches 2). -/
theorem C3_counterexample :
    ((runLoop (initState true soxName) []
        [(Json.str audioStartKey, Json.obj [(rateKey, Json.num 1000)], []),
         (Json.str audioStartKey, Json.obj [(rateKey, Json.num 2000)], [])]).1).rate =
      Json.num 2000 ∧
    ¬((runLoop (initState true soxName) []
        [(Json.str audioStartKey, Json.obj [(rateKey, Json.num 1000)], []),
         (Json.str audioStartKey, Json.obj [(rateKey, Json.num 2000)], [])]).1).rate =
      Json.num 1000 ∧
    ((runLoop (initState true soxName) []
        [(Json.str audioStartKey, Json.obj [(rateKey, Json.num 1000)], []),
         (Json.str audioStartKey, Json.obj [(rateKey, Json.num 2000)], [])]).1).procGen = 2 :=
  ⟨rfl, by intro h; injection h with h2; exact absurd h2 (by decide), rfl⟩

/-- C3 (corrected): every `audio-start` event — not only the first —
overwrites the recorded format with the values of its own data (with the
defaults for missing fields) and, when a streaming player is selected,
provisions a fresh player process for the new format. -/
theorem C3_audio_start_reconfigures (st : PbState) (pipe : List Bool) (d : Json)
    (payload : List Nat) (hs : st.streaming = true) (hp : startPlayer st.player = true) :
    step st pipe (Json.str audioStartKey, d, payload) =
      ({ st with
          rate := getD d rateKey (Json.num 22050),
          width := getD d widthKey (Json.num 2),
          channels := getD d channelsKey (Json.num 1),
          procActive := true, writes := [], stdinClosed := false,
          procGen := st.procGen + 1 }, pipe, false) := by
  simp only [step, jsonEqStr]
  rw [if_pos (by decide)]
  simp [hs, hp]

theorem C3_witness :
    startPlayer soxName = true ∧
    step { initState true soxName with procActive := true, procGen := 1 } []
        (Json.str audioStartKey, Json.obj [(rateKey, Json.num 2000)], []) =
      ({ initState true soxName with
          rate := Json.num 2000, procActive := true, procGen := 2 }, [], false) :=
  ⟨rfl, C3_audio_start_reconfigures
    { initState true soxName with procActive := true, procGen := 1 } []
    (Json.obj [(rateKey, Json.num 2000)]) [] rfl rfl⟩

/-- C10: with a streaming player selected, a non-empty `audio-chunk`
arriving while no sink process exists is appended to the in-memory PCM
buffer (after the byte and chunk counters update); and when `audio-stop`
arrives while a sink process does exist, only the process stdin is closed
— the accumulated buffer is written neither to the sink nor to the
file-backed fallback player. -/
theorem C10_pcm_buffered_then_discarded (st : PbState) (pipe : List Bool) (d d2 : Json)
    (payload p2 : List Nat) (hs : st.streaming = true) :
    (st.procActive = false → payload ≠ [] →
      step st pipe (Json.str audioChunkKey, d, payload) =
        ({ st with
            total_bytes := st.total_bytes + payload.length,
            chunk_count := st.chunk_count + 1,
            pcm_buf := st.pcm_buf ++ payload }, pipe, false)) ∧
    (st.procActive = true →
      step st pipe (Json.str audioStopKey, d2, p2) =
        ({ st with stdinClosed := true }, pipe, true)) := by
  constructor
  · intro hp hpl
    simp only [step, jsonEqStr]
    rw [if_neg (by decide), if_pos (by decide), if_neg hpl]
    simp [hp]
  · intro hp
    simp only [step, jsonEqStr]
    rw [if_neg (by decide), if_neg (by decide), if_pos (by decide)]
    simp [hs, hp]

theorem C10_witness :
    (initState true soxName).procActive = false ∧
    step (initState true soxName) [] (Json.str audioChunkKey, Json.obj [], [9]) =
      ({ initState true soxName with
          total_bytes := 1, chunk_count := 1, pcm_buf := [9] }, [], false) ∧
    step { initState true soxName with procActive := true } []
        (Json.str audioStopKey, Json.obj [], []) =
      ({ initState true soxName with procActive := true, stdinClosed := true }, [], true) :=
  ⟨rfl,
    (C10_pcm_buffered_then_discarded (initState true soxName) [] (Json.obj []) (Json.obj [])
      [9] [] rfl).1 rfl (by decide),
    (C10_pcm_buffered_then_discarded { initState true soxName with procActive := true } []
      (Json.obj []) (Json.obj []) [9] [] rfl).2 rfl⟩

end Wyoming
